import Mathlib

/-!
# Verification of the confidential-asset crypto framework

Shallow embedding of:
  * `src/cryptography/src/asset_proofs/ciphertext_refreshment_proof.rs`
  * `src/cryptography/src/asset_proofs/encryption_proofs.rs`
  * `src/mercat/common/src/validate.rs`

Modelling conventions
  * The Ristretto group is a cyclic group of prime order ℓ.  As a ℤ/ℓ-module it
    is isomorphic to `ZMod ℓ` itself, so both scalars and group points are
    modelled by `ZMod ℓ`; `scalar · point` becomes ring multiplication and
    point addition becomes ring addition.  Every proof below uses only the
    module structure (addition, subtraction, scalar action), never division of
    points or comparison of a point with a scalar, so the statements transfer
    to any prime-order-ℓ group.
  * The two sigma-protocol source files come from two revisions of the crate
    and use two revisions of the error enum (`ErrorKind` vs `AssetProofError`).
    The model merges them into a single inductive `AssetProofError`; the
    constructor names follow the source variants.  The spec's name for the
    batched-cardinality error, `VerificationError::ShapeMismatch`, corresponds
    to the source's `AssetProofError::VerificationError`.
  * Code of the repository that is not under `src/` (the Merlin-style
    transcript, the ElGamal primitives, the store helpers of
    `mercat/common/src/lib.rs`) is modelled from the spec; each such definition
    carries a doc comment starting with `Modelled from the spec:`.
-/

/-- The order ℓ of the Ristretto prime-order group / of the scalar field of
curve25519 (`curve25519_dalek::scalar`). -/
def ristretto_order : ℕ := 2 ^ 252 + 27742317777372353535851937790883648493

/-- Scalars are elements of ℤ/ℓ. -/
abbrev Scalar := ZMod ristretto_order

/-- Group points.  Ristretto is cyclic of prime order ℓ, hence isomorphic as a
ℤ/ℓ-module to `ZMod ℓ`; the embedding only ever uses the module structure. -/
abbrev Pt := ZMod ristretto_order

/-- The Pedersen generators of `bulletproofs::PedersenGens`: `B` is the value
basepoint (G) and `B_blinding` the blinding basepoint (H). -/
structure PedersenGens where
  B : Pt
  B_blinding : Pt
deriving DecidableEq

/-- Model of `PedersenGens::default()`: two fixed independent generators.  Any
two nonzero points model them; the development never uses their values beyond
the group structure. -/
def PedersenGens.default : PedersenGens := ⟨1, 2⟩

/-- Modelled from the spec: `CipherText` lives in the crate's `elgamal` module,
which is not under `src/`.  §4.3: a ciphertext is the pair of points (X, Y). -/
structure CipherText where
  x : Pt
  y : Pt
deriving DecidableEq

/-- Modelled from the spec: §4.3 homomorphism
`(X₁,Y₁) + (X₂,Y₂) = (X₁+X₂, Y₁+Y₂)`. -/
instance : Add CipherText := ⟨fun c₁ c₂ => ⟨c₁.x + c₂.x, c₁.y + c₂.y⟩⟩

/-- Modelled from the spec: §4.3 homomorphism
`(X₁,Y₁) − (X₂,Y₂) = (X₁−X₂, Y₁−Y₂)`. -/
instance : Sub CipherText := ⟨fun c₁ c₂ => ⟨c₁.x - c₂.x, c₁.y - c₂.y⟩⟩

/-- The ElGamal secret key (a scalar). -/
structure ElgamalSecretKey where
  secret : Scalar
deriving DecidableEq

/-- The ElGamal public key (a point). -/
structure ElgamalPublicKey where
  pub_key : Pt
deriving DecidableEq

/-- Modelled from the spec: `get_public_key` lives in the `elgamal` module, not
under `src/`.  §3 / §4.3: the public key is P = s·H, H being the blinding
basepoint. -/
def ElgamalSecretKey.get_public_key (sk : ElgamalSecretKey) (gens : PedersenGens) :
    ElgamalPublicKey := ⟨sk.secret * gens.B_blinding⟩

/-- Modelled from the spec: `encrypt` lives in the `elgamal` module, not under
`src/`.  §4.3: `encrypt(pub P, plaintext v, blinding r) → (X = r·P + v·G, Y = r·H)`. -/
def ElgamalPublicKey.encrypt_with (pk : ElgamalPublicKey) (gens : PedersenGens)
    (v r : Scalar) : CipherText := ⟨r * pk.pub_key + v * gens.B, r * gens.B_blinding⟩

/-- A scalar challenge (`ZKPChallenge { x: Scalar }`). -/
structure ZKPChallenge where
  x : Scalar
deriving DecidableEq

/-- The error enum of the asset-proof layer.  The two source files use two
revisions of it (`ErrorKind` and `AssetProofError`); both sets of variants used
by the sources are merged here.  `VerificationError` is what the spec calls
`VerificationError::ShapeMismatch`. -/
inductive AssetProofError
  | VerificationError
  | CiphertextRefreshmentFinalResponseVerificationError (check : ℕ)
  | CorrectnessFinalResponseVerificationError (str : String)
  | InvalidEncoding
deriving DecidableEq

deriving instance DecidableEq for Except

/-- An RNG is modelled as a stream of scalars; drawing reads position 0 and
advancing shifts the stream.  This models `&mut T where T: RngCore`. -/
def Rng : Type := ℕ → Scalar

/-- Advancing the RNG after one scalar has been drawn. -/
def Rng.advance (rng : Rng) : Rng := fun n => rng (n + 1)

-- ---------------------------------------------------------------------------
-- ciphertext_refreshment_proof.rs
-- ---------------------------------------------------------------------------

/-- `CipherTextRefreshmentInitialMessage { a, b }`. -/
structure CipherTextRefreshmentInitialMessage where
  a : Pt
  b : Pt
deriving DecidableEq

/-- `CipherTextRefreshmentFinalResponse(Scalar)` (a tuple struct; field `.0`
is named `z` here). -/
structure CipherTextRefreshmentFinalResponse where
  z : Scalar
deriving DecidableEq

/-- `CipherTextRefreshmentProverAwaitingChallenge`: secret key, the difference
`y = ciphertext1.y - ciphertext2.y`, and the Pedersen generators. -/
structure CipherTextRefreshmentProverAwaitingChallenge where
  secret_key : ElgamalSecretKey
  y : Pt
  pc_gens : PedersenGens

/-- `CipherTextRefreshmentProverAwaitingChallenge::new`. -/
def CipherTextRefreshmentProverAwaitingChallenge.new (secret_key : ElgamalSecretKey)
    (ciphertext1 ciphertext2 : CipherText) (gens : PedersenGens) :
    CipherTextRefreshmentProverAwaitingChallenge :=
  { secret_key := secret_key
    y := ciphertext1.y - ciphertext2.y
    pc_gens := gens }

/-- `CipherTextRefreshmentProver`: the secret key and the round-one randomness `u`. -/
structure CipherTextRefreshmentProver where
  secret_key : ElgamalSecretKey
  u : Scalar

/-- `generate_initial_message`: draw `rand_commitment` from the RNG and commit
`a = rand_commitment · y`, `b = rand_commitment · B_blinding`. -/
def CipherTextRefreshmentProverAwaitingChallenge.generate_initial_message
    (p : CipherTextRefreshmentProverAwaitingChallenge) (rng : Rng) :
    CipherTextRefreshmentProver × CipherTextRefreshmentInitialMessage :=
  let rand_commitment := rng 0
  (⟨p.secret_key, rand_commitment⟩,
   ⟨rand_commitment * p.y, rand_commitment * p.pc_gens.B_blinding⟩)

/-- `apply_challenge`: `z = u + c·s`. -/
def CipherTextRefreshmentProver.apply_challenge (p : CipherTextRefreshmentProver)
    (c : ZKPChallenge) : CipherTextRefreshmentFinalResponse :=
  ⟨p.u + c.x * p.secret_key.secret⟩

/-- `CipherTextRefreshmentVerifier`: public key, the two ciphertext
differences, and the Pedersen generators. -/
structure CipherTextRefreshmentVerifier where
  pub_key : ElgamalPublicKey
  x : Pt
  y : Pt
  pc_gens : PedersenGens

/-- `CipherTextRefreshmentVerifier::new`. -/
def CipherTextRefreshmentVerifier.new (pub_key : ElgamalPublicKey)
    (ciphertext1 ciphertext2 : CipherText) (gens : PedersenGens) :
    CipherTextRefreshmentVerifier :=
  { pub_key := pub_key
    x := ciphertext1.x - ciphertext2.x
    y := ciphertext1.y - ciphertext2.y
    pc_gens := gens }

/-- `CipherTextRefreshmentVerifier::verify`: `ensure!` of check #1
(`z·Y == a + c·X`), then `ensure!` of check #2 (`z·H == b + c·P`). -/
def CipherTextRefreshmentVerifier.verify (v : CipherTextRefreshmentVerifier)
    (challenge : ZKPChallenge) (initial_message : CipherTextRefreshmentInitialMessage)
    (z : CipherTextRefreshmentFinalResponse) : Except AssetProofError Unit :=
  if z.z * v.y = initial_message.a + challenge.x * v.x then
    if z.z * v.pc_gens.B_blinding = initial_message.b + challenge.x * v.pub_key.pub_key then
      .ok ()
    else
      .error (.CiphertextRefreshmentFinalResponseVerificationError 2)
  else
    .error (.CiphertextRefreshmentFinalResponseVerificationError 1)

-- ---------------------------------------------------------------------------
-- C1 / C2
-- ---------------------------------------------------------------------------

/-- C1: completeness of the ciphertext-refreshment proof.  For every secret key
`s` (with public key P = s·H) and every pair of ciphertexts whose differences
X = X₁−X₂ and Y = Y₁−Y₂ satisfy X = s·Y, the honestly generated proof
(`a = u·Y`, `b = u·H`, `z = u + c·s`) verifies for every challenge `c`.
Moreover (second conjunct) any two encryptions of the same value under P
satisfy X = s·Y, so the result in particular covers them. -/
theorem ciphertext_refreshment_completeness (s : Scalar) (gens : PedersenGens)
    (ct1 ct2 : CipherText) (c : ZKPChallenge) (rng : Rng)
    (hXY : ct1.x - ct2.x = s * (ct1.y - ct2.y)) :
    (let pk := ElgamalSecretKey.get_public_key ⟨s⟩ gens
     let prover_ac := CipherTextRefreshmentProverAwaitingChallenge.new ⟨s⟩ ct1 ct2 gens
     let pm := prover_ac.generate_initial_message rng
     let verifier := CipherTextRefreshmentVerifier.new pk ct1 ct2 gens
     verifier.verify c pm.2 (pm.1.apply_challenge c) = .ok ()) ∧
    (∀ v r₁ r₂ : Scalar,
      let pk := ElgamalSecretKey.get_public_key ⟨s⟩ gens
      let e₁ := pk.encrypt_with gens v r₁
      let e₂ := pk.encrypt_with gens v r₂
      e₁.x - e₂.x = s * (e₁.y - e₂.y)) := by
  constructor
  · have h1 : (rng 0 + c.x * s) * (ct1.y - ct2.y) =
        rng 0 * (ct1.y - ct2.y) + c.x * (ct1.x - ct2.x) := by
      rw [hXY]; ring
    have h2 : (rng 0 + c.x * s) * gens.B_blinding =
        rng 0 * gens.B_blinding + c.x * (s * gens.B_blinding) := by ring
    simp only [CipherTextRefreshmentProverAwaitingChallenge.new,
      CipherTextRefreshmentProverAwaitingChallenge.generate_initial_message,
      CipherTextRefreshmentProver.apply_challenge, CipherTextRefreshmentVerifier.new,
      CipherTextRefreshmentVerifier.verify, ElgamalSecretKey.get_public_key,
      h1, h2, if_true]
  · intro v r₁ r₂
    simp only [ElgamalPublicKey.encrypt_with, ElgamalSecretKey.get_public_key]
    ring

/-- Witness for C1: a concrete instance (s = 3, ciphertexts with difference
X = 6 = 3·(Y = 2), nonce u = 5, challenge c = 7). -/
theorem ciphertext_refreshment_completeness_specialized :
    ((⟨6, 2⟩ : CipherText).x - (⟨0, 0⟩ : CipherText).x =
      (3 : Scalar) * ((⟨6, 2⟩ : CipherText).y - (⟨0, 0⟩ : CipherText).y)) ∧
    (let pk := ElgamalSecretKey.get_public_key ⟨3⟩ PedersenGens.default
     let prover_ac := CipherTextRefreshmentProverAwaitingChallenge.new ⟨3⟩ ⟨6, 2⟩ ⟨0, 0⟩
       PedersenGens.default
     let pm := prover_ac.generate_initial_message (fun _ => 5)
     let verifier := CipherTextRefreshmentVerifier.new pk ⟨6, 2⟩ ⟨0, 0⟩ PedersenGens.default
     verifier.verify ⟨7⟩ pm.2 (pm.1.apply_challenge ⟨7⟩) = .ok ()) :=
  ⟨by decide,
   (ciphertext_refreshment_completeness 3 PedersenGens.default ⟨6, 2⟩ ⟨0, 0⟩ ⟨7⟩
      (fun _ => 5) (by decide)).1⟩

/-- C2: `CipherTextRefreshmentVerifier::verify` returns
`CiphertextRefreshmentFinalResponseVerificationError{check: 1}` exactly when
check #1 (`z·Y = a + c·X`) fails — check #2 is then irrelevant to the result —
returns `{check: 2}` exactly when check #1 holds and check #2
(`z·H = b + c·P`) fails, and returns `Ok` exactly when both hold. -/
theorem ciphertext_refreshment_verify_check_order (v : CipherTextRefreshmentVerifier)
    (c : ZKPChallenge) (m : CipherTextRefreshmentInitialMessage)
    (z : CipherTextRefreshmentFinalResponse) :
    (v.verify c m z = .ok () ↔
      (z.z * v.y = m.a + c.x * v.x ∧
       z.z * v.pc_gens.B_blinding = m.b + c.x * v.pub_key.pub_key)) ∧
    (v.verify c m z = .error (.CiphertextRefreshmentFinalResponseVerificationError 1) ↔
      ¬ z.z * v.y = m.a + c.x * v.x) ∧
    (v.verify c m z = .error (.CiphertextRefreshmentFinalResponseVerificationError 2) ↔
      (z.z * v.y = m.a + c.x * v.x ∧
       ¬ z.z * v.pc_gens.B_blinding = m.b + c.x * v.pub_key.pub_key)) := by
  unfold CipherTextRefreshmentVerifier.verify
  split_ifs with h1 h2 <;> simp_all

-- ---------------------------------------------------------------------------
-- Transcript model (transcript.rs is not under src/; modelled from the spec)
-- ---------------------------------------------------------------------------

/-- Modelled from the spec: a transcript absorb event — a domain-separator
label, a labelled (validated) compressed point, or a labelled scalar (§4.2). -/
inductive TranscriptOp
  | label (l : String)
  | point (l : String) (p : Pt)
  | scalarData (l : String) (s : Scalar)
deriving DecidableEq

/-- Modelled from the spec: the transcript state is determined by the ordered
sequence of labelled absorbs (§4.2 invariant), so it is modelled as that
sequence. -/
abbrev Transcript := List TranscriptOp

/-- Modelled from the spec: `Transcript::new(label)` — a fresh transcript
seeded with the label. -/
def Transcript.new (l : String) : Transcript := [.label l]

/-- Modelled from the spec: `append_domain_separator(label)` absorbs a static
label. -/
def Transcript.append_domain_separator (t : Transcript) (l : String) : Transcript :=
  t ++ [.label l]

/-- Modelled from the spec: `append_validated_point(label, compressed_point)`
absorbs the 32 canonical bytes of a valid point; in the model every `Pt` is a
valid group element, so the operation always succeeds (the `InvalidEncoding`
branch concerns non-canonical byte strings, which the model's points cannot
represent). -/
def Transcript.append_validated_point (t : Transcript) (l : String) (p : Pt) :
    Except AssetProofError Transcript :=
  .ok (t ++ [.point l p])

/-- An injective-enough encoding of a string, used by the model of the
challenge squeeze. -/
def encodeString (s : String) : ℕ :=
  s.toList.foldl (fun a c => a * 1114112 + c.toNat + 1) 0

/-- Encoding of a single absorb event as a natural number. -/
def TranscriptOp.toNat : TranscriptOp → ℕ
  | .label l => 3 * encodeString l
  | .point l p => 3 * (encodeString l * ristretto_order + p.val) + 1
  | .scalarData l s => 3 * (encodeString l * ristretto_order + s.val) + 2

/-- Encoding of an absorb sequence as a natural number. -/
def Transcript.toNat (t : Transcript) : ℕ :=
  t.foldl (fun a o => (a + 1) * (3 * 1114112 ^ 64 * ristretto_order ^ 2) + o.toNat) 0

/-- Modelled from the spec: `scalar_challenge(label)` squeezes a challenge that
is a deterministic function of the ordered, labelled absorbs so far plus the
challenge label, mapped into ℤ/ℓ by wide reduction (§4.2). -/
def Transcript.scalar_challenge (t : Transcript) (l : String) : ZKPChallenge :=
  ⟨(Transcript.toNat (t ++ [TranscriptOp.label l]) : ZMod ristretto_order)⟩

-- ---------------------------------------------------------------------------
-- encryption_proofs.rs — the generic Σ-protocol framework
-- ---------------------------------------------------------------------------

/-- The domain label for the encryption proofs. -/
def ENCRYPTION_PROOFS_LABEL : String := "PolymathEncryptionProofs"

/-- The domain label for the challenge. -/
def ENCRYPTION_PROOFS_CHALLENGE_LABEL : String := "PolymathEncryptionProofsChallenge"

/-- The domain label for the ciphertext-refreshment challenge. -/
def CIPHERTEXT_REFRESHMENT_PROOF_CHALLENGE_LABEL : String :=
  "PolymathCipherTextRefreshmentChallenge"

/-- The operations of the `AssetProofProverAwaitingChallenge` /
`AssetProofProver` traits (the `encryption_proofs.rs` revision), bundled for a
prover type `P`, prover-state type `Prov`, message type `Msg` and response type
`Resp`.  `update_transcript` is the `UpdateTranscript` bound on
`ZKInitialMessage`.  `generate_initial_message` threads the mutable RNG. -/
structure SigmaProverOps (P Prov Msg Resp : Type) where
  generate_initial_message : P → PedersenGens → Rng → (Prov × Msg) × Rng
  apply_challenge : Prov → ZKPChallenge → Resp
  update_transcript : Msg → Transcript → Except AssetProofError Transcript

/-- The operations of the `AssetProofVerifier` trait. -/
structure SigmaVerifierOps (V Msg Resp : Type) where
  verify : V → PedersenGens → ZKPChallenge → Msg → Resp → Except AssetProofError Unit
  update_transcript : Msg → Transcript → Except AssetProofError Transcript

/-- `provers.iter().map(|p| p.generate_initial_message(&gens, rng)).unzip()`:
each prover in input order generates its (prover-state, initial-message) pair,
threading the single mutable RNG. -/
def generateAll {P Prov Msg Resp : Type} (tr : SigmaProverOps P Prov Msg Resp)
    (gens : PedersenGens) : List P → Rng → List (Prov × Msg) × Rng
  | [], rng => ([], rng)
  | p :: rest, rng =>
    let pm := tr.generate_initial_message p gens rng
    let tail := generateAll tr gens rest pm.2
    (pm.1 :: tail.1, tail.2)

/-- `initial_messages.iter().map(|m| m.update_transcript(&mut transcript))
.collect::<Result<(),_>>()?`: absorb every initial message into the one
transcript in input order, short-circuiting on the first error. -/
def absorbAll {Msg : Type} (upd : Msg → Transcript → Except AssetProofError Transcript)
    (t : Transcript) : List Msg → Except AssetProofError Transcript
  | [] => .ok t
  | m :: rest =>
    match upd m t with
    | .error e => .error e
    | .ok t' => absorbAll upd t' rest

/-- `prove_multiple_encryption_properties`: one transcript seeded with the
protocol label, all initial messages generated then absorbed in input order,
one challenge squeezed, and every final response computed with that same
challenge. -/
def prove_multiple_encryption_properties {P Prov Msg Resp : Type}
    (tr : SigmaProverOps P Prov Msg Resp) (provers : List P) (rng : Rng) :
    Except AssetProofError (List Msg × List Resp) :=
  let transcript := Transcript.new ENCRYPTION_PROOFS_LABEL
  let gens := PedersenGens.default
  let pms := (generateAll tr gens provers rng).1
  let provers_vec := pms.map Prod.fst
  let initial_messages_vec := pms.map Prod.snd
  match absorbAll tr.update_transcript transcript initial_messages_vec with
  | .error e => .error e
  | .ok t' =>
    let challenge := Transcript.scalar_challenge t' ENCRYPTION_PROOFS_CHALLENGE_LABEL
    let final_responses := provers_vec.map (fun prover => tr.apply_challenge prover challenge)
    .ok (initial_messages_vec, final_responses)

/-- The verification loop `for i in 0..verifiers.len() { verifiers[i].verify(
&gens, &challenge, &initial_messages[i], &final_responses[i])? }`.  The source
indexes three equal-length slices; the model zips them (the caller has already
checked the lengths). -/
def verifyLoop {V Msg Resp : Type} (vt : SigmaVerifierOps V Msg Resp)
    (gens : PedersenGens) (challenge : ZKPChallenge) :
    List (V × Msg × Resp) → Except AssetProofError Unit
  | [] => .ok ()
  | (v, m, r) :: rest =>
    match vt.verify v gens challenge m r with
    | .error e => .error e
    | .ok _ => verifyLoop vt gens challenge rest

/-- `verify_multiple_encryption_properties`: reject on cardinality mismatch,
then recompute the challenge by absorbing every initial message in input order
into a transcript seeded with the protocol label, and verify each triple with
the shared challenge. -/
def verify_multiple_encryption_properties {V Msg Resp : Type}
    (vt : SigmaVerifierOps V Msg Resp) (verifiers : List V)
    (initial_messages : List Msg) (final_responses : List Resp) :
    Except AssetProofError Unit :=
  if initial_messages.length ≠ final_responses.length ∨
      verifiers.length ≠ final_responses.length then
    .error .VerificationError
  else
    match absorbAll vt.update_transcript (Transcript.new ENCRYPTION_PROOFS_LABEL)
        initial_messages with
    | .error e => .error e
    | .ok t' =>
      let challenge := Transcript.scalar_challenge t' ENCRYPTION_PROOFS_CHALLENGE_LABEL
      let gens := PedersenGens.default
      verifyLoop vt gens challenge
        (verifiers.zip (initial_messages.zip final_responses))

/-- `single_property_prover`: delegate to
`prove_multiple_encryption_properties(&[prover], rng)` and take the two
singleton elements (`remove(0)`). -/
def single_property_prover {P Prov Msg Resp : Type} [Inhabited Msg] [Inhabited Resp]
    (tr : SigmaProverOps P Prov Msg Resp) (prover_ac : P) (rng : Rng) :
    Except AssetProofError (Msg × Resp) :=
  match prove_multiple_encryption_properties tr [prover_ac] rng with
  | .error e => .error e
  | .ok (ms, rs) => .ok (ms.headI, rs.headI)

/-- `single_property_verifier`: delegate to
`verify_multiple_encryption_properties(&[verifier], (&[m], &[z]))`. -/
def single_property_verifier {V Msg Resp : Type} (vt : SigmaVerifierOps V Msg Resp)
    (verifier : V) (initial_message : Msg) (final_response : Resp) :
    Except AssetProofError Unit :=
  verify_multiple_encryption_properties vt [verifier] [initial_message] [final_response]

-- ---------------------------------------------------------------------------
-- The refreshment proof as an instance of the framework
-- ---------------------------------------------------------------------------

instance : Inhabited CipherTextRefreshmentInitialMessage := ⟨⟨1, 1⟩⟩

instance : Inhabited CipherTextRefreshmentFinalResponse := ⟨⟨0⟩⟩

/-- `update_transcript` of `CipherTextRefreshmentInitialMessage`: absorb the
domain separator, then the points under labels "A" and "B". -/
def CipherTextRefreshmentInitialMessage.update_transcript
    (m : CipherTextRefreshmentInitialMessage) (t : Transcript) :
    Except AssetProofError Transcript := do
  let t := Transcript.append_domain_separator t CIPHERTEXT_REFRESHMENT_PROOF_CHALLENGE_LABEL
  let t ← Transcript.append_validated_point t "A" m.a
  let t ← Transcript.append_validated_point t "B" m.b
  .ok t

/-- The refreshment prover packaged in the calling convention of the driver in
`encryption_proofs.rs` (which supplies the Pedersen generators and the raw RNG;
the prover itself uses its stored `pc_gens`, as in the source, and draws one
scalar). -/
def refreshmentProverOps : SigmaProverOps CipherTextRefreshmentProverAwaitingChallenge
    CipherTextRefreshmentProver CipherTextRefreshmentInitialMessage
    CipherTextRefreshmentFinalResponse where
  generate_initial_message := fun p _gens rng => (p.generate_initial_message rng, rng.advance)
  apply_challenge := fun prover c => prover.apply_challenge c
  update_transcript := fun m t => m.update_transcript t

/-- The refreshment verifier packaged in the calling convention of the driver
(the verifier uses its stored `pc_gens`, as in the source). -/
def refreshmentVerifierOps : SigmaVerifierOps CipherTextRefreshmentVerifier
    CipherTextRefreshmentInitialMessage CipherTextRefreshmentFinalResponse where
  verify := fun v _gens c m r => v.verify c m r
  update_transcript := fun m t => m.update_transcript t

-- ---------------------------------------------------------------------------
-- Helper lemmas about the driver loops
-- ---------------------------------------------------------------------------

/-- Any error escaping `absorbAll` was produced by `update_transcript`. -/
lemma absorbAll_error_source {Msg : Type}
    (upd : Msg → Transcript → Except AssetProofError Transcript) (e : AssetProofError) :
    ∀ (ms : List Msg) (t : Transcript), absorbAll upd t ms = .error e →
      ∃ m t', upd m t' = .error e := by
  intro ms
  induction ms with
  | nil => intro t h; simp [absorbAll] at h
  | cons m rest ih =>
    intro t h
    unfold absorbAll at h
    cases hu : upd m t with
    | error e' => rw [hu] at h; exact ⟨m, t, by rw [hu]; injection h with h'; rw [h']⟩
    | ok t' => rw [hu] at h; exact ih t' h

/-- Any error escaping `verifyLoop` was produced by `verify`. -/
lemma verifyLoop_error_source {V Msg Resp : Type} (vt : SigmaVerifierOps V Msg Resp)
    (gens : PedersenGens) (c : ZKPChallenge) (e : AssetProofError) :
    ∀ l : List (V × Msg × Resp), verifyLoop vt gens c l = .error e →
      ∃ v m r, vt.verify v gens c m r = .error e := by
  intro l
  induction l with
  | nil => intro h; simp [verifyLoop] at h
  | cons x rest ih =>
    intro h
    obtain ⟨v, m, r⟩ := x
    unfold verifyLoop at h
    cases hv : vt.verify v gens c m r with
    | error e' => rw [hv] at h; exact ⟨v, m, r, by rw [hv]; injection h with h'; rw [h']⟩
    | ok u => rw [hv] at h; exact ih h

/-- The one-element batch of the prover driver, unfolded. -/
lemma prove_multiple_singleton {P Prov Msg Resp : Type}
    (tr : SigmaProverOps P Prov Msg Resp) (p : P) (rng : Rng) :
    prove_multiple_encryption_properties tr [p] rng =
      (match tr.update_transcript
          ((tr.generate_initial_message p PedersenGens.default rng).1.2)
          (Transcript.new ENCRYPTION_PROOFS_LABEL) with
      | .error e => .error e
      | .ok t' =>
        .ok ([(tr.generate_initial_message p PedersenGens.default rng).1.2],
          [tr.apply_challenge (tr.generate_initial_message p PedersenGens.default rng).1.1
            (Transcript.scalar_challenge t' ENCRYPTION_PROOFS_CHALLENGE_LABEL)])) := by
  unfold prove_multiple_encryption_properties generateAll
  cases h : tr.update_transcript ((tr.generate_initial_message p PedersenGens.default rng).1.2)
      (Transcript.new ENCRYPTION_PROOFS_LABEL) <;>
    simp [absorbAll, generateAll, h]

-- ---------------------------------------------------------------------------
-- C10
-- ---------------------------------------------------------------------------

/-- C10: the single-statement drivers are the one-element case of the batch
drivers: `single_property_prover` returns `.ok (m, z)` exactly when
`prove_multiple_encryption_properties` on the one-prover list returns
`.ok ([m], [z])` (and propagates exactly the batch driver's errors), and
`single_property_verifier` literally delegates to
`verify_multiple_encryption_properties` on the singleton lists. -/
theorem single_property_drivers_are_one_element_batch
    {P Prov Msg Resp V : Type} [Inhabited Msg] [Inhabited Resp]
    (tr : SigmaProverOps P Prov Msg Resp) (vt : SigmaVerifierOps V Msg Resp) :
    (∀ (p : P) (rng : Rng) (m : Msg) (z : Resp),
      single_property_prover tr p rng = .ok (m, z) ↔
      prove_multiple_encryption_properties tr [p] rng = .ok ([m], [z])) ∧
    (∀ (p : P) (rng : Rng) (e : AssetProofError),
      single_property_prover tr p rng = .error e ↔
      prove_multiple_encryption_properties tr [p] rng = .error e) ∧
    (∀ (v : V) (m : Msg) (z : Resp),
      single_property_verifier vt v m z =
      verify_multiple_encryption_properties vt [v] [m] [z]) := by
  refine ⟨fun p rng m z => ?_, fun p rng e => ?_, fun v m z => rfl⟩ <;>
    simp only [single_property_prover, prove_multiple_singleton] <;>
    cases h : tr.update_transcript ((tr.generate_initial_message p PedersenGens.default rng).1.2)
        (Transcript.new ENCRYPTION_PROOFS_LABEL) <;>
      simp [List.headI, h]

-- ---------------------------------------------------------------------------
-- C3
-- ---------------------------------------------------------------------------

/-- C3 (amended): in `prove_multiple_encryption_properties` a single transcript
(seeded with the protocol label) absorbs every prover's initial message in
input order, exactly one challenge is squeezed from it, and every final
response is computed with that one shared challenge (first conjunct);
`verify_multiple_encryption_properties` recomputes its challenge from the very
same absorption sequence over the initial messages (second conjunct); and the
order is observable: swapping two refreshment initial messages that differ
changes the absorbed transcript sequence from which the challenge is squeezed
(third conjunct).  (Swapping provers whose absorbed messages coincide leaves
the transcript, the challenge and the proof unchanged, so the original claim's
unconditional "changes the challenge" fails; see the counterexample.) -/
theorem batch_single_shared_challenge_and_order
    {P Prov Msg Resp V : Type}
    (tr : SigmaProverOps P Prov Msg Resp) (vt : SigmaVerifierOps V Msg Resp) :
    (∀ (provers : List P) (rng : Rng) (ms : List Msg) (zs : List Resp),
      prove_multiple_encryption_properties tr provers rng = .ok (ms, zs) →
      ∃ t' : Transcript,
        ms = ((generateAll tr PedersenGens.default provers rng).1.map Prod.snd) ∧
        absorbAll tr.update_transcript (Transcript.new ENCRYPTION_PROOFS_LABEL) ms =
          .ok t' ∧
        zs = ((generateAll tr PedersenGens.default provers rng).1.map Prod.fst).map
          (fun prover => tr.apply_challenge prover
            (Transcript.scalar_challenge t' ENCRYPTION_PROOFS_CHALLENGE_LABEL))) ∧
    (∀ (verifiers : List V) (ms : List Msg) (zs : List Resp),
      ms.length = zs.length → verifiers.length = zs.length →
      verify_multiple_encryption_properties vt verifiers ms zs =
        (match absorbAll vt.update_transcript (Transcript.new ENCRYPTION_PROOFS_LABEL) ms with
        | .error e => .error e
        | .ok t' =>
          verifyLoop vt PedersenGens.default
            (Transcript.scalar_challenge t' ENCRYPTION_PROOFS_CHALLENGE_LABEL)
            (verifiers.zip (ms.zip zs)))) ∧
    (∀ (m₁ m₂ : CipherTextRefreshmentInitialMessage) (t : Transcript), m₁ ≠ m₂ →
      absorbAll refreshmentVerifierOps.update_transcript t [m₁, m₂] ≠
      absorbAll refreshmentVerifierOps.update_transcript t [m₂, m₁]) := by
  refine ⟨fun provers rng ms zs h => ?_, fun verifiers ms zs h₁ h₂ => ?_,
    fun m₁ m₂ t hne heq => ?_⟩
  · simp only [prove_multiple_encryption_properties] at h
    cases habs : absorbAll tr.update_transcript (Transcript.new ENCRYPTION_PROOFS_LABEL)
        ((generateAll tr PedersenGens.default provers rng).1.map Prod.snd) with
    | error e => rw [habs] at h; cases h
    | ok t' =>
      rw [habs] at h
      refine ⟨t', ?_⟩
      injection h with h'
      obtain ⟨hms, hzs⟩ := Prod.mk.injEq .. ▸ h'
      subst hms
      exact ⟨rfl, habs, by simp [← hzs, List.map_map]⟩
  · unfold verify_multiple_encryption_properties
    rw [if_neg]
    simp [h₁, h₂]
  · apply hne
    simp only [absorbAll, refreshmentVerifierOps,
      CipherTextRefreshmentInitialMessage.update_transcript,
      Transcript.append_domain_separator, Transcript.append_validated_point,
      bind, Except.bind, Except.ok.injEq, List.append_assoc] at heq
    simp only [List.append_cancel_left_eq, List.cons.injEq, TranscriptOp.point.injEq,
      List.cons_append, List.nil_append] at heq
    obtain ⟨_, ⟨_, ha⟩, ⟨_, hb⟩, _⟩ := heq
    cases m₁; cases m₂; simp_all

/-- Counterexample to C3 as stated: permuting the provers does not always
change the challenge or the proof.  With two identical provers (same statement
and witness) the swapped input list is the same list, so
`prove_multiple_encryption_properties` absorbs the same transcript sequence,
squeezes the same challenge, and returns the identical proof. -/
theorem batch_swap_can_leave_proof_unchanged :
    (let p : CipherTextRefreshmentProverAwaitingChallenge :=
      ⟨⟨3⟩, 5, PedersenGens.default⟩
     let swapFirstTwo : List CipherTextRefreshmentProverAwaitingChallenge →
        List CipherTextRefreshmentProverAwaitingChallenge := fun l =>
      match l with
      | a :: b :: rest => b :: a :: rest
      | l => l
     swapFirstTwo [p, p] = [p, p] ∧
     prove_multiple_encryption_properties refreshmentProverOps (swapFirstTwo [p, p])
        (fun _ => (4 : Scalar)) =
       prove_multiple_encryption_properties refreshmentProverOps [p, p]
        (fun _ => (4 : Scalar))) :=
  ⟨rfl, rfl⟩

-- ---------------------------------------------------------------------------
-- C4
-- ---------------------------------------------------------------------------

/-- C4: for any verifier instance that never itself signals
`VerificationError` (true of every concrete proof in the crate, whose
`update_transcript` may fail only with `InvalidEncoding` and whose `verify`
fails only with its own per-equation errors),
`verify_multiple_encryption_properties` returns the shape-mismatch error
(`AssetProofError::VerificationError`, the spec's
`VerificationError::ShapeMismatch`) exactly when the cardinalities of the
verifiers, initial messages and final responses are not all equal; the empty
batch is accepted as a trivial proof, the challenge being squeezed from the
transcript holding only the bare protocol label. -/
theorem verify_multiple_shape_mismatch_exactly {V Msg Resp : Type}
    (vt : SigmaVerifierOps V Msg Resp)
    (hupd : ∀ m t, vt.update_transcript m t ≠ .error .VerificationError)
    (hver : ∀ v g c m r, vt.verify v g c m r ≠ .error .VerificationError)
    (verifiers : List V) (initial_messages : List Msg) (final_responses : List Resp) :
    (verify_multiple_encryption_properties vt verifiers initial_messages final_responses =
        .error .VerificationError ↔
      ¬ (verifiers.length = final_responses.length ∧
         initial_messages.length = final_responses.length)) ∧
    verify_multiple_encryption_properties vt [] ([] : List Msg) ([] : List Resp) =
      .ok () ∧
    absorbAll vt.update_transcript (Transcript.new ENCRYPTION_PROOFS_LABEL)
        ([] : List Msg) = .ok (Transcript.new ENCRYPTION_PROOFS_LABEL) := by
  refine ⟨?_, rfl, rfl⟩
  unfold verify_multiple_encryption_properties
  by_cases hc : initial_messages.length ≠ final_responses.length ∨
      verifiers.length ≠ final_responses.length
  · rw [if_pos hc]
    exact iff_of_true rfl (by tauto)
  · rw [if_neg hc]
    push_neg at hc
    constructor
    · intro h
      cases habs : absorbAll vt.update_transcript (Transcript.new ENCRYPTION_PROOFS_LABEL)
          initial_messages with
      | error e =>
        rw [habs] at h
        injection h with h'
        obtain ⟨m, t', hm⟩ := absorbAll_error_source vt.update_transcript e initial_messages
          (Transcript.new ENCRYPTION_PROOFS_LABEL) habs
        exact absurd (h' ▸ hm) (hupd m t')
      | ok t' =>
        rw [habs] at h
        dsimp only at h
        cases hloop : verifyLoop vt PedersenGens.default
            (Transcript.scalar_challenge t' ENCRYPTION_PROOFS_CHALLENGE_LABEL)
            (verifiers.zip (initial_messages.zip final_responses)) with
        | error e =>
          rw [hloop] at h
          injection h with h'
          obtain ⟨v, m, r, hv⟩ := verifyLoop_error_source vt PedersenGens.default
            (Transcript.scalar_challenge t' ENCRYPTION_PROOFS_CHALLENGE_LABEL) e _ hloop
          exact absurd (h' ▸ hv) (hver v PedersenGens.default _ m r)
        | ok u => rw [hloop] at h; cases h
    · intro h
      exact absurd ⟨hc.2, hc.1⟩ h

/-- Witness for C4, applying the theorem to the concrete refreshment verifier:
a one-verifier batch with zero messages and responses is rejected with the
shape-mismatch error, and the empty batch is accepted. -/
theorem verify_multiple_shape_mismatch_specialized :
    verify_multiple_encryption_properties refreshmentVerifierOps
        [(⟨⟨6⟩, 6, 2, PedersenGens.default⟩ : CipherTextRefreshmentVerifier)]
        ([] : List CipherTextRefreshmentInitialMessage)
        ([] : List CipherTextRefreshmentFinalResponse) = .error .VerificationError ∧
    verify_multiple_encryption_properties refreshmentVerifierOps
        ([] : List CipherTextRefreshmentVerifier) [] [] = .ok () := by
  have hupd : ∀ m t, refreshmentVerifierOps.update_transcript m t ≠
      .error .VerificationError := by
    intro m t
    simp [refreshmentVerifierOps, CipherTextRefreshmentInitialMessage.update_transcript,
      Transcript.append_domain_separator, Transcript.append_validated_point, bind, Except.bind]
  have hver : ∀ v g c m r, refreshmentVerifierOps.verify v g c m r ≠
      .error .VerificationError := by
    intro v g c m r
    unfold refreshmentVerifierOps CipherTextRefreshmentVerifier.verify
    dsimp only
    split_ifs <;> simp
  exact ⟨(verify_multiple_shape_mismatch_exactly refreshmentVerifierOps hupd hver
      [⟨⟨6⟩, 6, 2, PedersenGens.default⟩] [] []).1.mpr (by simp),
    (verify_multiple_shape_mismatch_exactly refreshmentVerifierOps hupd hver
      [] [] []).2.1⟩

-- ---------------------------------------------------------------------------
-- C5
-- ---------------------------------------------------------------------------

/-- `create_transcript_rng` of the refreshment prover
(`ciphertext_refreshment_proof.rs`, the newer trait revision):
`transcript.build_rng().rekey_with_witness_bytes(b"y", y_bytes).finalize(rng)`.
The Merlin RNG builder itself is not under `src/`, so its mixing is
modelled from the spec (§4.2: an RNG that mixes the transcript state, the
witness bytes and fresh entropy): the resulting stream offsets the entropy
stream by a value derived from the transcript state and the witness. -/
def CipherTextRefreshmentProverAwaitingChallenge.create_transcript_rng
    (p : CipherTextRefreshmentProverAwaitingChallenge) (rng : Rng) (t : Transcript) :
    Rng :=
  fun n => rng n + ((Transcript.toNat t + (p.y.val + 1) : ℕ) : Scalar)

/-- Modelled from the spec: the §4.4 single-statement non-interactive prover
driver, steps 1–7, including step 2
(`rng' ← prover.create_transcript_rng(entropy_rng, transcript)`) which the
driver in `src/.../encryption_proofs.rs` omits.  Written for the refreshment
prover, whose `generate_initial_message(rng: &mut TranscriptRng)` signature
(and whose tests calling `single_property_prover`) require exactly this
driver shape. -/
def single_property_prover_spec_model
    (prover_ac : CipherTextRefreshmentProverAwaitingChallenge) (rng : Rng) :
    Except AssetProofError
      (CipherTextRefreshmentInitialMessage × CipherTextRefreshmentFinalResponse) :=
  let transcript := Transcript.new ENCRYPTION_PROOFS_LABEL
  let rng' := prover_ac.create_transcript_rng rng transcript
  let pm := prover_ac.generate_initial_message rng'
  match pm.2.update_transcript transcript with
  | .error e => .error e
  | .ok t' =>
    let challenge := Transcript.scalar_challenge t' ENCRYPTION_PROOFS_CHALLENGE_LABEL
    .ok (pm.2, pm.1.apply_challenge challenge)

/-- C5 is false of the code (a stale-driver bug): the driver under `src/`
passes the caller's entropy RNG straight to `generate_initial_message` and
never constructs a transcript-derived RNG.  First conjunct: for every
refreshment prover and every entropy stream, the commitment randomness used by
`single_property_prover` (hence by `prove_multiple_encryption_properties`) is
the raw head of the caller's entropy stream.  Second conjunct: at a concrete
input, the spec's driver (which rekeys with the transcript state and witness,
as the refreshment prover's own `create_transcript_rng` and tests require)
produces a different initial message. -/
theorem prover_driver_uses_raw_entropy :
    (∀ (p : CipherTextRefreshmentProverAwaitingChallenge) (rng : Rng),
      (single_property_prover refreshmentProverOps p rng).map Prod.fst =
        .ok ⟨rng 0 * p.y, rng 0 * p.pc_gens.B_blinding⟩) ∧
    ((single_property_prover_spec_model ⟨⟨3⟩, 5, PedersenGens.default⟩
        (fun _ => (4 : Scalar))).map Prod.fst ≠
      .ok ⟨(4 : Scalar) * 5, (4 : Scalar) * 2⟩) := by
  constructor
  · intro p rng
    rfl
  · decide

/-- Witness for C3's theorem: at two concrete distinct refreshment initial
messages, swapping the absorption order changes the transcript sequence the
challenge is squeezed from. -/
theorem batch_single_shared_challenge_witness :
    absorbAll refreshmentVerifierOps.update_transcript ([] : Transcript)
        [(⟨1, 2⟩ : CipherTextRefreshmentInitialMessage), ⟨3, 4⟩] ≠
      absorbAll refreshmentVerifierOps.update_transcript ([] : Transcript)
        [(⟨3, 4⟩ : CipherTextRefreshmentInitialMessage), ⟨1, 2⟩] :=
  (batch_single_shared_challenge_and_order refreshmentProverOps
    refreshmentVerifierOps).2.2 ⟨1, 2⟩ ⟨3, 4⟩ [] (by decide)

-- ---------------------------------------------------------------------------
-- mercat/common/src/validate.rs — data model
-- ---------------------------------------------------------------------------

/-- `EncryptedAmount` is an ElGamal ciphertext. -/
abbrev EncryptedAmount := CipherText

/-- The account memo (`AccountMemo` of the account, an external type): the
validator reads `last_processed_tx_counter` from it and otherwise carries it
through unchanged; the remaining content is opaque (`payload`). -/
structure AccountMemoM where
  last_processed_tx_counter : ℕ
  payload : ℕ
deriving DecidableEq

/-- `PubAccount { id, enc_asset_id, enc_balance, memo }`. -/
structure PubAccount where
  id : ℕ
  enc_asset_id : EncryptedAmount
  enc_balance : EncryptedAmount
  memo : AccountMemoM
deriving DecidableEq

/-- `Direction ∈ {Incoming, Outgoing}`. -/
inductive Direction
  | Incoming
  | Outgoing
deriving DecidableEq

/-- `ValidationResult { user, ticker, direction, amount }`. -/
structure ValidationResult where
  user : String
  ticker : String
  direction : Direction
  amount : Option EncryptedAmount
deriving DecidableEq

/-- Modelled from the spec: `ValidationResult::error` lives in
`mercat/common/src/lib.rs`, not under `src/`.  §3: `amount = None` iff
validation failed for that leg; the direction of an error result is immaterial
(the folding skips every `None` amount), so the model fixes it to `Incoming`. -/
def ValidationResult.error (user ticker : String) : ValidationResult :=
  { user := user, ticker := ticker, direction := .Incoming, amount := none }

/-- The validator's error enum (`errors::Error`), restricted to the kinds the
embedded code distinguishes: per-file parse errors, object-store I/O errors,
wrapped cryptographic errors, and the unexpected-kind error. -/
inductive VError
  | ParseError
  | IoError
  | LibraryError
  | TransactionIsNotReadyForValidation
deriving DecidableEq

/-- The memo of a transfer transaction
(`tx.content.content.init_data.content.memo`, flattened). -/
structure TransferTxMemo where
  sndr_account_id : ℕ
  rcvr_account_id : ℕ
  enc_amount_using_sndr : EncryptedAmount
  enc_amount_using_rcvr : EncryptedAmount
  sndr_ordering_state_current_tx_id : ℕ
deriving DecidableEq

/-- `JustifiedTransferTx`, reduced to the fields the validator reads. -/
structure JustifiedTransferTx where
  memo : TransferTxMemo
deriving DecidableEq

/-- `JustifiedAssetTx`, reduced to the fields the validator reads
(`content.content.account_id` and `content.content.memo.enc_issued_amount`). -/
structure JustifiedAssetTx where
  account_id : ℕ
  enc_issued_amount : EncryptedAmount
deriving DecidableEq

/-- `TxSubstate`. -/
inductive TxSubstate
  | Started
  | Validated
deriving DecidableEq

/-- `CTXInstruction { state, data }`; `process_transaction` decodes `data`
into a `JustifiedTransferTx` (the model keeps it decoded). -/
structure CTXInstruction where
  state : TxSubstate
  data : JustifiedTransferTx
deriving DecidableEq

/-- `PubAccountTx`, reduced to its embedded public account
(`content.pub_account`). -/
structure PubAccountTx where
  pub_account : PubAccount
deriving DecidableEq

/-- `CoreTransaction`, restricted to the variants the validator loop matches;
`NotReadyKind` stands for every other variant (the `_` arm), carrying its
`is_ready_for_validation` readiness. -/
inductive CoreTransaction
  | IssueJustify (issue_tx : JustifiedAssetTx) (tx_id : ℕ) (mediator : String)
  | TransferJustify (tx : JustifiedTransferTx) (tx_id : ℕ) (mediator : String)
  | Account (account_tx : PubAccountTx) (tx_id : ℕ)
  | NotReadyKind (ready : Bool) (tx_id : ℕ)
deriving DecidableEq

/-- Modelled from the spec: `is_ready_for_validation` lives in `lib.rs`, not
under `src/`.  §4.6: the justified `Started` substates (issuance justification,
transfer justification, account creation) are ready; the catch-all variant
carries its own readiness flag. -/
def CoreTransaction.is_ready_for_validation : CoreTransaction → Bool
  | .IssueJustify .. => true
  | .TransferJustify .. => true
  | .Account .. => true
  | .NotReadyKind ready _ => ready

/-- The `tx_id` of a transaction. -/
def CoreTransaction.tx_id : CoreTransaction → ℕ
  | .IssueJustify _ i _ => i
  | .TransferJustify _ i _ => i
  | .Account _ i => i
  | .NotReadyKind _ i => i

/-- The `tx_id as i32` conversion used for `last_tx_id` (`tx_id` is a `u32`). -/
def u32_as_i32 (n : ℕ) : Int :=
  if n % 2 ^ 32 < 2 ^ 31 then ((n % 2 ^ 32 : ℕ) : Int) else ((n % 2 ^ 32 : ℕ) : Int) - 2 ^ 32

/-- The object-store state the validator reads and writes: the per-(user,
ticker) public accounts, the saved transaction-instruction files (path keys
only — their contents are irrelevant to the claims) and the
`LAST_VALIDATED_TX_ID` file. -/
structure LedgerState where
  accounts : String × String → Option PubAccount
  tx_files : List (ℕ × String)
  last_validated_tx_id : Option Int

/-- Modelled from the spec: the store helpers of `lib.rs`
(`get_user_ticker_from`, `load_object`, `last_ordering_state_before`,
`compute_enc_pending_balance`, …) and the verifier entry points of the
`cryptography` crate (`AccountValidator::verify`,
`AssetValidator::verify_asset_transaction`,
`TransactionValidator::verify_transaction`) are not under `src/`; each is
modelled as an oracle.  Account loads and saves go through
`LedgerState.accounts` (read-after-write consistency, §6.1); writes are
modelled as always succeeding.  The verification oracles return `Except Unit`
and the caller wraps failures in `Error::LibraryError`, as the source does. -/
structure ValidatorEnv where
  get_user_ticker_from : ℕ → Except VError (String × String × ℕ)
  load_mediator_account : String → Except VError ℕ
  load_instruction : ℕ → String → Except VError CTXInstruction
  last_ordering_state_before : String → ℕ → ℕ → ℕ → Except VError ℕ
  compute_enc_pending_balance : String → ℕ → ℕ → EncryptedAmount → Except VError EncryptedAmount
  verify_transaction : JustifiedTransferTx → PubAccount → PubAccount → ℕ → EncryptedAmount →
    Except Unit (PubAccount × PubAccount)
  verify_asset_transaction : JustifiedAssetTx → PubAccount → ℕ → Except Unit PubAccount
  load_pub_account_tx : ℕ → String → String → Except VError PubAccountTx
  get_asset_ids : Except VError (List ℕ)
  account_verify : PubAccountTx → List ℕ → Except Unit Unit

/-- A transaction file as seen by `load_all_unverified_and_ready`: the outcome
of `parse_tx_name` followed by `load_tx_file` (both in `lib.rs`). -/
abbrev TxFile := Except VError CoreTransaction

/-- `load_all_unverified_and_ready`: keep the errors and the ready
transactions, then `collect()` — which short-circuits at the first error in
iteration order. -/
def load_all_unverified_and_ready (files : List TxFile) :
    Except VError (List CoreTransaction) :=
  (files.filter fun r =>
    match r with
    | .error _ => true
    | .ok tx => tx.is_ready_for_validation).mapM id

-- ---------------------------------------------------------------------------
-- validate.rs — the per-transaction validators
-- ---------------------------------------------------------------------------

/-- `validate_account`: look the account up, load the stored `PubAccountTx`,
load the valid asset ids, run `AccountValidator::verify` (wrapping failures in
`Error::LibraryError`), and on success persist the account at the user's
public-account path (the source saves the `PubAccountTx` there; the model
stores its embedded account). -/
def validate_account (env : ValidatorEnv) (st : LedgerState) (account_id : ℕ) :
    Except VError LedgerState := do
  let utt ← env.get_user_ticker_from account_id
  let user := utt.1
  let ticker := utt.2.1
  let tx_id := utt.2.2
  let user_account ← env.load_pub_account_tx tx_id user ticker
  let valid_asset_ids ← env.get_asset_ids
  match env.account_verify user_account valid_asset_ids with
  | .error _ => .error .LibraryError
  | .ok _ =>
    .ok { st with accounts := fun k =>
      if k = (user, ticker) then some user_account.pub_account else st.accounts k }

/-- `validate_asset_issuance`: every failure (issuer lookup, mediator account
load, issuer account load, `AssetValidator::verify_asset_transaction`) is
caught and turned into an error `ValidationResult`; on success the instruction
file is persisted with substate `Validated` and the result carries
`enc_issued_amount` as an `Incoming` amount for the issuer. -/
def validate_asset_issuance (env : ValidatorEnv) (st : LedgerState)
    (asset_tx : JustifiedAssetTx) (mediator : String) (tx_id : ℕ) :
    ValidationResult × LedgerState :=
  match env.get_user_ticker_from asset_tx.account_id with
  | .error _ => (ValidationResult.error "n/a" "n/a", st)
  | .ok (issuer, ticker, _) =>
    match env.load_mediator_account mediator with
    | .error _ => (ValidationResult.error issuer ticker, st)
    | .ok mediator_account =>
      match st.accounts (issuer, ticker) with
      | none => (ValidationResult.error issuer ticker, st)
      | some issuer_account =>
        match env.verify_asset_transaction asset_tx issuer_account mediator_account with
        | .error _ => (ValidationResult.error issuer ticker, st)
        | .ok _ =>
          ({ user := issuer, ticker := ticker, direction := .Incoming,
             amount := some asset_tx.enc_issued_amount },
           { st with tx_files := st.tx_files ++ [(tx_id, issuer)] })

/-- `validate_transaction`: every failure (sender lookup, receiver lookup,
instruction load, mediator account load, sender account load, receiver account
load, `process_transaction`'s `TransactionValidator::verify_transaction`) is
caught and both legs become error `ValidationResult`s; on success the
instruction is persisted with substate `Validated` and the two legs carry
`enc_amount_using_sndr` (`Outgoing`, sender) and `enc_amount_using_rcvr`
(`Incoming`, receiver). -/
def validate_transaction (env : ValidatorEnv) (st : LedgerState)
    (tx : JustifiedTransferTx) (mediator : String)
    (pending_balance : EncryptedAmount) (tx_id : ℕ) :
    (ValidationResult × ValidationResult) × LedgerState :=
  match env.get_user_ticker_from tx.memo.sndr_account_id with
  | .error _ =>
    ((ValidationResult.error "n/a" "n/a", ValidationResult.error "n/a" "n/a"), st)
  | .ok (sender, _, _) =>
    match env.get_user_ticker_from tx.memo.rcvr_account_id with
    | .error _ =>
      ((ValidationResult.error "n/a" "n/a", ValidationResult.error "n/a" "n/a"), st)
    | .ok (receiver, ticker, _) =>
      match env.load_instruction tx_id mediator with
      | .error _ =>
        ((ValidationResult.error sender ticker, ValidationResult.error receiver ticker), st)
      | .ok instruction =>
        match env.load_mediator_account mediator with
        | .error _ =>
          ((ValidationResult.error sender ticker, ValidationResult.error receiver ticker), st)
        | .ok mediator_account =>
          match st.accounts (sender, ticker) with
          | none =>
            ((ValidationResult.error sender ticker, ValidationResult.error receiver ticker), st)
          | some sender_account =>
            match st.accounts (receiver, ticker) with
            | none =>
              ((ValidationResult.error sender ticker, ValidationResult.error receiver ticker), st)
            | some receiver_account =>
              match env.verify_transaction instruction.data sender_account receiver_account
                  mediator_account pending_balance with
              | .error _ =>
                ((ValidationResult.error sender ticker, ValidationResult.error receiver ticker),
                 st)
              | .ok _ =>
                (({ user := sender, ticker := ticker, direction := .Outgoing,
                    amount := some tx.memo.enc_amount_using_sndr },
                  { user := receiver, ticker := ticker, direction := .Incoming,
                    amount := some tx.memo.enc_amount_using_rcvr }),
                 { st with tx_files := st.tx_files ++ [(tx_id, sender)] })

/-- The dispatch loop of `validate_all_pending` over the ready transactions,
accumulating the `ValidationResult`s and `last_tx_id` (initialised to −1).
Per-transaction validation failures are pushed as error results (issuance,
transfer) or swallowed (account creation); the `?` operators of the transfer
arm (sender lookup, sender account load, `last_ordering_state_before`,
`compute_enc_pending_balance`) and the `_` arm's
`Error::TransactionIsNotReadyForValidation` abort the whole run.  The
`debug_decrypt` calls occur only inside `debug!` log-argument positions and
are not modelled. -/
def main_loop (env : ValidatorEnv) :
    List CoreTransaction → LedgerState → List ValidationResult → Int →
    Except VError (List ValidationResult × Int × LedgerState)
  | [], st, results, last_tx_id => .ok (results, last_tx_id, st)
  | tx :: rest, st, results, last_tx_id =>
    match tx with
    | .IssueJustify issue_tx tx_id mediator =>
      let r := validate_asset_issuance env st issue_tx mediator tx_id
      main_loop env rest r.2 (results ++ [r.1]) (max last_tx_id (u32_as_i32 tx_id))
    | .TransferJustify ttx tx_id mediator => do
      let utt ← env.get_user_ticker_from ttx.memo.sndr_account_id
      let sender := utt.1
      let ticker := utt.2.1
      match st.accounts (sender, ticker) with
      | none => .error .IoError
      | some sender_account => do
        let ordering_state ← env.last_ordering_state_before sender
          sender_account.memo.last_processed_tx_counter tx_id
          ttx.memo.sndr_ordering_state_current_tx_id
        let pending_balance ← env.compute_enc_pending_balance sender ordering_state
          sender_account.memo.last_processed_tx_counter sender_account.enc_balance
        let rr := validate_transaction env st ttx mediator pending_balance tx_id
        main_loop env rest rr.2 (results ++ [rr.1.1, rr.1.2])
          (max last_tx_id (u32_as_i32 tx_id))
    | .Account account_tx tx_id =>
      match validate_account env st account_tx.pub_account.id with
      | .error _ => main_loop env rest st results (max last_tx_id (u32_as_i32 tx_id))
      | .ok st' => main_loop env rest st' results (max last_tx_id (u32_as_i32 tx_id))
    | .NotReadyKind _ _ => .error .TransactionIsNotReadyForValidation

/-- The distinct `(user, ticker)` pairs of the results, excluding the `"n/a"`
sentinel user (the source first collects the users with `user != "n/a"`, then
the `(user, ticker)` pairs of their results into a `HashSet`).  The source
iterates the `HashSet` in arbitrary order; since each iteration touches only
its own key, the final store does not depend on the order, and the model fixes
first-occurrence order. -/
def account_pairs (results : List ValidationResult) : List (String × String) :=
  (results.filterMap fun r =>
    if r.user = "n/a" then none else some (r.user, r.ticker)).dedup

/-- The inner folding loop over the results for one `(user, ticker)` account:
add the amount on `Incoming`, subtract it on `Outgoing`, skip results with
`amount = None` and results of other accounts. -/
def fold_account_delta (results : List ValidationResult) (user ticker : String)
    (start : EncryptedAmount) : EncryptedAmount :=
  results.foldl (fun new_balance r =>
    if r.user = user ∧ r.ticker = ticker then
      match r.direction, r.amount with
      | .Incoming, some amount => new_balance + amount
      | .Incoming, none => new_balance
      | .Outgoing, some amount => new_balance - amount
      | .Outgoing, none => new_balance
    else new_balance) start

/-- The balance-folding phase: for each collected account, load its
`PubAccount` (failing the run if it is absent), fold the deltas onto
`enc_balance`, and persist the account with `id`, `enc_asset_id` and `memo`
unchanged. -/
def fold_balances (results : List ValidationResult) :
    List (String × String) → LedgerState → Except VError LedgerState
  | [], st => .ok st
  | (user, ticker) :: rest, st =>
    match st.accounts (user, ticker) with
    | none => .error .IoError
    | some pub_account =>
      let updated : PubAccount :=
        { id := pub_account.id, enc_asset_id := pub_account.enc_asset_id,
          enc_balance := fold_account_delta results user ticker pub_account.enc_balance,
          memo := pub_account.memo }
      fold_balances results rest
        { st with accounts := fun k =>
            if k = (user, ticker) then some updated else st.accounts k }

/-- `validate_all_pending`: load and filter the transactions, run the dispatch
loop, fold the balances, and finally persist `last_tx_id` as
`LAST_VALIDATED_TX_ID` (unconditionally — also when no transaction was
processed). -/
def validate_all_pending (env : ValidatorEnv) (st : LedgerState)
    (files : List TxFile) : Except VError LedgerState := do
  let all_unverified_and_ready ← load_all_unverified_and_ready files
  let out ← main_loop env all_unverified_and_ready st [] (-1)
  let st' ← fold_balances out.1 (account_pairs out.1) out.2.2
  .ok { st' with last_validated_tx_id := some out.2.1 }

-- ---------------------------------------------------------------------------
-- Ciphertext arithmetic lemmas (the §4.3 homomorphic group structure)
-- ---------------------------------------------------------------------------

instance : Zero CipherText := ⟨⟨0, 0⟩⟩

instance : Neg CipherText := ⟨fun c => ⟨-c.x, -c.y⟩⟩

@[simp] lemma CipherText.add_x (a b : CipherText) : (a + b).x = a.x + b.x := rfl

@[simp] lemma CipherText.add_y (a b : CipherText) : (a + b).y = a.y + b.y := rfl

@[simp] lemma CipherText.sub_x (a b : CipherText) : (a - b).x = a.x - b.x := rfl

@[simp] lemma CipherText.sub_y (a b : CipherText) : (a - b).y = a.y - b.y := rfl

@[simp] lemma CipherText.neg_x (a : CipherText) : (-a).x = -a.x := rfl

@[simp] lemma CipherText.neg_y (a : CipherText) : (-a).y = -a.y := rfl

@[simp] lemma CipherText.zero_x : (0 : CipherText).x = 0 := rfl

@[simp] lemma CipherText.zero_y : (0 : CipherText).y = 0 := rfl

lemma CipherText.ext_xy {a b : CipherText} (hx : a.x = b.x) (hy : a.y = b.y) : a = b := by
  cases a; cases b; simp_all

/-- The ciphertexts form an additive commutative group under the §4.3
homomorphic operations. -/
instance : AddCommGroup CipherText where
  add := (· + ·)
  zero := 0
  neg := (- ·)
  sub := (· - ·)
  nsmul := nsmulRec
  zsmul := zsmulRec
  add_assoc a b c := CipherText.ext_xy (by simp [add_assoc]) (by simp [add_assoc])
  zero_add a := CipherText.ext_xy (by simp) (by simp)
  add_zero a := CipherText.ext_xy (by simp) (by simp)
  add_comm a b := CipherText.ext_xy (by simp [add_comm]) (by simp [add_comm])
  sub_eq_add_neg a b := CipherText.ext_xy (by simp [sub_eq_add_neg]) (by simp [sub_eq_add_neg])
  neg_add_cancel a := CipherText.ext_xy (by simp) (by simp)

-- ---------------------------------------------------------------------------
-- The claim-level sums over validation results
-- ---------------------------------------------------------------------------

/-- The sum of the amount ciphertexts of the `Incoming` results of one
`(user, ticker)` account; results with `amount = None` contribute nothing. -/
def sum_incoming : List ValidationResult → String → String → EncryptedAmount
  | [], _, _ => 0
  | r :: rest, user, ticker =>
    (if r.user = user ∧ r.ticker = ticker ∧ r.direction = .Incoming then
      r.amount.getD 0 else 0) + sum_incoming rest user ticker

/-- The sum of the amount ciphertexts of the `Outgoing` results of one
`(user, ticker)` account; results with `amount = None` contribute nothing. -/
def sum_outgoing : List ValidationResult → String → String → EncryptedAmount
  | [], _, _ => 0
  | r :: rest, user, ticker =>
    (if r.user = user ∧ r.ticker = ticker ∧ r.direction = .Outgoing then
      r.amount.getD 0 else 0) + sum_outgoing rest user ticker

/-- The source's single folding loop equals the claim's
`start + Σ incoming − Σ outgoing`. -/
lemma fold_account_delta_eq (user ticker : String) :
    ∀ (results : List ValidationResult) (start : EncryptedAmount),
      fold_account_delta results user ticker start =
        start + sum_incoming results user ticker - sum_outgoing results user ticker := by
  intro results
  induction results with
  | nil =>
    intro start
    simp [fold_account_delta, sum_incoming, sum_outgoing]
  | cons r rest ih =>
    intro start
    simp only [fold_account_delta, List.foldl_cons] at ih ⊢
    rw [ih]
    by_cases hc : (r.user = user ∧ r.ticker = ticker) <;>
      cases hdir : r.direction <;> cases ham : r.amount <;>
        simp [sum_incoming, sum_outgoing, hc, hdir, ham] <;> abel

lemma sum_incoming_append (l₁ l₂ : List ValidationResult) (user ticker : String) :
    sum_incoming (l₁ ++ l₂) user ticker =
      sum_incoming l₁ user ticker + sum_incoming l₂ user ticker := by
  induction l₁ with
  | nil => simp [sum_incoming]
  | cons r rest ih => simp [sum_incoming, ih, add_assoc]

lemma sum_outgoing_append (l₁ l₂ : List ValidationResult) (user ticker : String) :
    sum_outgoing (l₁ ++ l₂) user ticker =
      sum_outgoing l₁ user ticker + sum_outgoing l₂ user ticker := by
  induction l₁ with
  | nil => simp [sum_outgoing]
  | cons r rest ih => simp [sum_outgoing, ih, add_assoc]

/-- A result with `amount = None` contributes nothing to either sum or to the
source's folding loop. -/
lemma none_amount_contributes_nothing (r : ValidationResult) (hr : r.amount = none)
    (results : List ValidationResult) (user ticker : String) (start : EncryptedAmount) :
    fold_account_delta (results ++ [r]) user ticker start =
      fold_account_delta results user ticker start ∧
    sum_incoming (results ++ [r]) user ticker = sum_incoming results user ticker ∧
    sum_outgoing (results ++ [r]) user ticker = sum_outgoing results user ticker := by
  refine ⟨?_, ?_, ?_⟩
  · simp only [fold_account_delta, List.foldl_append, List.foldl_cons, List.foldl_nil]
    by_cases hc : (r.user = user ∧ r.ticker = ticker) <;>
      cases hdir : r.direction <;> simp [hc, hdir, hr]
  · rw [sum_incoming_append]
    by_cases hc : (r.user = user ∧ r.ticker = ticker ∧ r.direction = .Incoming) <;>
      simp [sum_incoming, hc, hr]
  · rw [sum_outgoing_append]
    by_cases hc : (r.user = user ∧ r.ticker = ticker ∧ r.direction = .Outgoing) <;>
      simp [sum_outgoing, hc, hr]

-- ---------------------------------------------------------------------------
-- Folding-phase lemmas
-- ---------------------------------------------------------------------------

/-- The folding phase touches only the keys in its account list. -/
lemma fold_balances_preserves (results : List ValidationResult) :
    ∀ (L : List (String × String)) (st st' : LedgerState) (k : String × String),
      k ∉ L → fold_balances results L st = .ok st' → st'.accounts k = st.accounts k := by
  intro L
  induction L with
  | nil =>
    intro st st' k _ h
    injection h with h'
    rw [← h']
  | cons p rest ih =>
    intro st st' k hk h
    obtain ⟨user, ticker⟩ := p
    unfold fold_balances at h
    cases hacc : st.accounts (user, ticker) with
    | none => rw [hacc] at h; cases h
    | some pub_account =>
      rw [hacc] at h
      dsimp only at h
      have hne : k ≠ (user, ticker) := fun he => hk (he ▸ List.mem_cons_self _ _)
      have := ih _ _ k (fun hmem => hk (List.mem_cons_of_mem _ hmem)) h
      rw [this]
      simp [hne]

/-- The folding phase stores, for each collected key, the account updated by
the source's folding loop run on the store state at entry to the phase. -/
lemma fold_balances_at_mem (results : List ValidationResult) :
    ∀ (L : List (String × String)), L.Nodup →
      ∀ (st st' : LedgerState) (user ticker : String) (acct : PubAccount),
        (user, ticker) ∈ L → st.accounts (user, ticker) = some acct →
        fold_balances results L st = .ok st' →
        st'.accounts (user, ticker) = some
          { id := acct.id, enc_asset_id := acct.enc_asset_id,
            enc_balance := fold_account_delta results user ticker acct.enc_balance,
            memo := acct.memo } := by
  intro L
  induction L with
  | nil => intro _ st st' user ticker acct hmem; cases hmem
  | cons p rest ih =>
    intro hnodup st st' user ticker acct hmem hacct h
    obtain ⟨u₀, t₀⟩ := p
    by_cases hp : ((user, ticker) : String × String) = (u₀, t₀)
    · obtain ⟨hu, ht⟩ := Prod.mk.injEq .. ▸ hp
      subst hu; subst ht
      unfold fold_balances at h
      rw [hacct] at h
      dsimp only at h
      have hnotin : ((user, ticker) : String × String) ∉ rest :=
        (List.nodup_cons.mp hnodup).1
      have := fold_balances_preserves results rest _ _ (user, ticker) hnotin h
      rw [this]
      simp
    · have hmem' : ((user, ticker) : String × String) ∈ rest := by
        cases List.mem_cons.mp hmem with
        | inl he => exact absurd he hp
        | inr hm => exact hm
      unfold fold_balances at h
      cases hacc₀ : st.accounts (u₀, t₀) with
      | none => rw [hacc₀] at h; cases h
      | some a₀ =>
        rw [hacc₀] at h
        dsimp only at h
        refine ih (List.nodup_cons.mp hnodup).2 _ _ user ticker acct hmem' ?_ h
        simp [hp, hacct]

/-- Membership in the folding phase's account set: the `(user, ticker)` pairs
of the results whose user is not the `"n/a"` sentinel. -/
lemma mem_account_pairs (results : List ValidationResult) (user ticker : String) :
    (user, ticker) ∈ account_pairs results ↔
      user ≠ "n/a" ∧ ∃ r ∈ results, r.user = user ∧ r.ticker = ticker := by
  unfold account_pairs
  rw [List.mem_dedup, List.mem_filterMap]
  constructor
  · rintro ⟨r, hr, hif⟩
    by_cases h : r.user = "n/a"
    · simp [h] at hif
    · simp only [h, if_false] at hif
      obtain ⟨hu, ht⟩ : r.user = user ∧ r.ticker = ticker := by simpa using hif
      exact ⟨hu ▸ h, r, hr, hu, ht⟩
  · rintro ⟨hna, r, hr, hu, ht⟩
    refine ⟨r, hr, ?_⟩
    rw [if_neg (hu ▸ hna)]
    rw [hu, ht]

/-- `Except.ok` is a left unit for bind (do-notation reduction). -/
lemma exc_ok_bind {ε α β : Type} (a : α) (f : α → Except ε β) :
    (Except.ok a >>= f : Except ε β) = f a := rfl

-- ---------------------------------------------------------------------------
-- C6
-- ---------------------------------------------------------------------------

/-- C6 (amended): after the whole batch is processed, for every
`(user, ticker)` pair appearing in the validation results whose user is not
the `"n/a"` failure sentinel, a successful `validate_all_pending` run persists
a `PubAccount` whose `enc_balance` is the account's balance at entry to the
folding phase plus the sum of its `Incoming` amounts minus the sum of its
`Outgoing` amounts (results with `amount = None` contributing nothing), with
`id`, `enc_asset_id` and `memo` unchanged.  (Results carrying the sentinel
user `"n/a"` are excluded from folding by the source; see the
counterexample.) -/
theorem balance_folding_per_account
    (env : ValidatorEnv) (st : LedgerState) (files : List TxFile)
    (txs : List CoreTransaction) (results : List ValidationResult) (last : Int)
    (st₁ st' : LedgerState) (user ticker : String) (acct : PubAccount)
    (hload : load_all_unverified_and_ready files = .ok txs)
    (hmain : main_loop env txs st [] (-1) = .ok (results, last, st₁))
    (hrun : validate_all_pending env st files = .ok st')
    (hna : user ≠ "n/a")
    (hmem : ∃ r ∈ results, r.user = user ∧ r.ticker = ticker)
    (hacct : st₁.accounts (user, ticker) = some acct) :
    st'.accounts (user, ticker) = some
      { id := acct.id, enc_asset_id := acct.enc_asset_id,
        enc_balance := acct.enc_balance + sum_incoming results user ticker -
          sum_outgoing results user ticker,
        memo := acct.memo } := by
  unfold validate_all_pending at hrun
  rw [hload, exc_ok_bind, hmain, exc_ok_bind] at hrun
  cases hfold : fold_balances results (account_pairs results) st₁ with
  | error e => rw [hfold] at hrun; cases hrun
  | ok st₂ =>
    rw [hfold, exc_ok_bind] at hrun
    injection hrun with hrun'
    have hpairs : (user, ticker) ∈ account_pairs results :=
      (mem_account_pairs results user ticker).mpr ⟨hna, hmem⟩
    have := fold_balances_at_mem results (account_pairs results)
      (List.nodup_dedup _) st₁ st₂ user ticker acct hpairs hacct hfold
    rw [← hrun']
    rw [this, fold_account_delta_eq]

/-- A trivial account memo for concrete instances. -/
def memo0 : AccountMemoM := ⟨0, 0⟩

/-- Environment of the C6 counterexample: the issuer lookup returns a user
literally named `"n/a"` (the failure sentinel is an in-band string), and the
issuance proof verifies. -/
def env_c6 : ValidatorEnv where
  get_user_ticker_from := fun _ => .ok ("n/a", "T", 0)
  load_mediator_account := fun _ => .ok 0
  load_instruction := fun _ _ => .error .IoError
  last_ordering_state_before := fun _ _ _ _ => .ok 0
  compute_enc_pending_balance := fun _ _ _ b => .ok b
  verify_transaction := fun _ _ _ _ _ => .error ()
  verify_asset_transaction := fun _ acc _ => .ok acc
  load_pub_account_tx := fun _ _ _ => .error .IoError
  get_asset_ids := .ok []
  account_verify := fun _ _ => .ok ()

/-- The stored account of the user named `"n/a"`. -/
def acct_na : PubAccount := ⟨7, ⟨0, 0⟩, ⟨0, 0⟩, memo0⟩

/-- Initial store of the C6 counterexample. -/
def st_c6 : LedgerState :=
  ⟨fun k => if k = ("n/a", "T") then some acct_na else none, [], none⟩

/-- The single issuance file of the C6 counterexample. -/
def files_c6 : List TxFile := [.ok (.IssueJustify ⟨1, ⟨1, 1⟩⟩ 4 "med")]

/-- Counterexample to C6 as stated: the pair `("n/a", "T")` appears in the
validation results with a `Some` amount (the issuance succeeded for a user
named `"n/a"`), yet the folding phase — which filters out the user `"n/a"` —
leaves the stored account untouched instead of persisting the account with the
incoming amount added, as the claim requires for EVERY pair appearing in the
results. -/
theorem balance_folding_skips_na_user :
    (main_loop env_c6 [.IssueJustify ⟨1, ⟨1, 1⟩⟩ 4 "med"] st_c6 [] (-1)).map
        (fun o => o.1) =
      .ok [⟨"n/a", "T", .Incoming, some ⟨1, 1⟩⟩] ∧
    (validate_all_pending env_c6 st_c6 files_c6).map
        (fun s => s.accounts ("n/a", "T")) = .ok (some acct_na) ∧
    some acct_na ≠ some
      { id := acct_na.id, enc_asset_id := acct_na.enc_asset_id,
        enc_balance := acct_na.enc_balance +
          sum_incoming [⟨"n/a", "T", .Incoming, some ⟨1, 1⟩⟩] "n/a" "T" -
          sum_outgoing [⟨"n/a", "T", .Incoming, some ⟨1, 1⟩⟩] "n/a" "T",
        memo := acct_na.memo } :=
  ⟨rfl, rfl, by decide⟩

/-- Environment of the C6 witness: a single issuance of amount (2, 3) to the
account of `("alice", "T")`. -/
def env_c6w : ValidatorEnv where
  get_user_ticker_from := fun _ => .ok ("alice", "T", 0)
  load_mediator_account := fun _ => .ok 0
  load_instruction := fun _ _ => .error .IoError
  last_ordering_state_before := fun _ _ _ _ => .ok 0
  compute_enc_pending_balance := fun _ _ _ b => .ok b
  verify_transaction := fun _ _ _ _ _ => .error ()
  verify_asset_transaction := fun _ acc _ => .ok acc
  load_pub_account_tx := fun _ _ _ => .error .IoError
  get_asset_ids := .ok []
  account_verify := fun _ _ => .ok ()

/-- Alice's stored account. -/
def acct_alice : PubAccount := ⟨9, ⟨5, 5⟩, ⟨1, 1⟩, memo0⟩

/-- Initial store of the C6 witness. -/
def st_c6w : LedgerState :=
  ⟨fun k => if k = ("alice", "T") then some acct_alice else none, [], none⟩

/-- The single issuance file of the C6 witness. -/
def files_c6w : List TxFile := [.ok (.IssueJustify ⟨1, ⟨2, 3⟩⟩ 4 "med")]

/-- The validation results of the C6 witness run. -/
def results_c6w : List ValidationResult := [⟨"alice", "T", .Incoming, some ⟨2, 3⟩⟩]

/-- The store after the main loop of the C6 witness run. -/
def st1_c6w : LedgerState := { st_c6w with tx_files := st_c6w.tx_files ++ [(4, "alice")] }

/-- The store after the complete C6 witness run. -/
def stp_c6w : LedgerState :=
  { accounts := fun k =>
      if k = ("alice", "T") then
        some { id := acct_alice.id, enc_asset_id := acct_alice.enc_asset_id,
               enc_balance := fold_account_delta results_c6w "alice" "T"
                 acct_alice.enc_balance,
               memo := acct_alice.memo }
      else st1_c6w.accounts k,
    tx_files := st1_c6w.tx_files,
    last_validated_tx_id := some (max (-1) (u32_as_i32 4)) }

/-- Witness for C6's theorem: the concrete run credits alice's account with
the issued amount and leaves id, asset id and memo unchanged. -/
theorem balance_folding_per_account_specialized :
    stp_c6w.accounts ("alice", "T") = some
      { id := acct_alice.id, enc_asset_id := acct_alice.enc_asset_id,
        enc_balance := acct_alice.enc_balance +
          sum_incoming results_c6w "alice" "T" - sum_outgoing results_c6w "alice" "T",
        memo := acct_alice.memo } :=
  balance_folding_per_account env_c6w st_c6w files_c6w
    [.IssueJustify ⟨1, ⟨2, 3⟩⟩ 4 "med"] results_c6w (max (-1) (u32_as_i32 4))
    st1_c6w stp_c6w "alice" "T" acct_alice rfl rfl rfl (by decide)
    ⟨⟨"alice", "T", .Incoming, some ⟨2, 3⟩⟩, by decide, rfl, rfl⟩ rfl

-- ---------------------------------------------------------------------------
-- C7
-- ---------------------------------------------------------------------------

/-- Whether every step of `validate_transaction` (sender lookup, receiver
lookup, instruction load, mediator account load, sender and receiver account
loads, and `TransactionValidator::verify_transaction`) succeeds, in source
order. -/
def transfer_steps_ok (env : ValidatorEnv) (st : LedgerState)
    (tx : JustifiedTransferTx) (mediator : String)
    (pending_balance : EncryptedAmount) (tx_id : ℕ) : Bool :=
  match env.get_user_ticker_from tx.memo.sndr_account_id with
  | .error _ => false
  | .ok (sender, _, _) =>
    match env.get_user_ticker_from tx.memo.rcvr_account_id with
    | .error _ => false
    | .ok (receiver, ticker, _) =>
      match env.load_instruction tx_id mediator with
      | .error _ => false
      | .ok instruction =>
        match env.load_mediator_account mediator with
        | .error _ => false
        | .ok mediator_account =>
          match st.accounts (sender, ticker) with
          | none => false
          | some sender_account =>
            match st.accounts (receiver, ticker) with
            | none => false
            | some receiver_account =>
              (env.verify_transaction instruction.data sender_account receiver_account
                mediator_account pending_balance).isOk

/-- C7: if any step of validating a justified transfer fails,
`validate_transaction` returns `ValidationResult::error` for BOTH the sender
leg and the receiver leg (`amount = None` on each), and consequently the
balance-folding phase is left unchanged by this transfer: appending the two
error legs to any result list changes neither the source's folding loop nor
the claim-level incoming/outgoing sums of any account. -/
theorem failed_transfer_two_error_legs_no_delta
    (env : ValidatorEnv) (st : LedgerState) (tx : JustifiedTransferTx)
    (mediator : String) (pending_balance : EncryptedAmount) (tx_id : ℕ)
    (h : transfer_steps_ok env st tx mediator pending_balance tx_id = false) :
    ∃ u₁ t₁ u₂ t₂,
      (validate_transaction env st tx mediator pending_balance tx_id).1 =
        (ValidationResult.error u₁ t₁, ValidationResult.error u₂ t₂) ∧
      (ValidationResult.error u₁ t₁).amount = none ∧
      (ValidationResult.error u₂ t₂).amount = none ∧
      (∀ (results : List ValidationResult) (user ticker : String)
          (start : EncryptedAmount),
        fold_account_delta
            (results ++ [ValidationResult.error u₁ t₁, ValidationResult.error u₂ t₂])
            user ticker start =
          fold_account_delta results user ticker start ∧
        sum_incoming
            (results ++ [ValidationResult.error u₁ t₁, ValidationResult.error u₂ t₂])
            user ticker = sum_incoming results user ticker ∧
        sum_outgoing
            (results ++ [ValidationResult.error u₁ t₁, ValidationResult.error u₂ t₂])
            user ticker = sum_outgoing results user ticker) := by
  have htwo : ∀ u₁ t₁ u₂ t₂ (results : List ValidationResult) (user ticker : String)
      (start : EncryptedAmount),
      fold_account_delta
          (results ++ [ValidationResult.error u₁ t₁, ValidationResult.error u₂ t₂])
          user ticker start =
        fold_account_delta results user ticker start ∧
      sum_incoming
          (results ++ [ValidationResult.error u₁ t₁, ValidationResult.error u₂ t₂])
          user ticker = sum_incoming results user ticker ∧
      sum_outgoing
          (results ++ [ValidationResult.error u₁ t₁, ValidationResult.error u₂ t₂])
          user ticker = sum_outgoing results user ticker := by
    intro u₁ t₁ u₂ t₂ results user ticker start
    have hsplit : results ++ [ValidationResult.error u₁ t₁, ValidationResult.error u₂ t₂] =
        (results ++ [ValidationResult.error u₁ t₁]) ++ [ValidationResult.error u₂ t₂] := by
      simp
    have h₁ := none_amount_contributes_nothing (ValidationResult.error u₁ t₁) rfl
      results user ticker start
    have h₂ := none_amount_contributes_nothing (ValidationResult.error u₂ t₂) rfl
      (results ++ [ValidationResult.error u₁ t₁]) user ticker start
    rw [hsplit]
    exact ⟨h₂.1.trans h₁.1, (h₂.2.1.trans h₁.2.1), (h₂.2.2.trans h₁.2.2)⟩
  unfold transfer_steps_ok at h
  unfold validate_transaction
  cases h₁ : env.get_user_ticker_from tx.memo.sndr_account_id with
  | error e =>
    dsimp only
    exact ⟨"n/a", "n/a", "n/a", "n/a", rfl, rfl, rfl, htwo _ _ _ _⟩
  | ok v₁ =>
    obtain ⟨sender, ticker₁, j₁⟩ := v₁
    rw [h₁] at h
    dsimp only at h ⊢
    cases h₂ : env.get_user_ticker_from tx.memo.rcvr_account_id with
    | error e =>
      dsimp only
      exact ⟨"n/a", "n/a", "n/a", "n/a", rfl, rfl, rfl, htwo _ _ _ _⟩
    | ok v₂ =>
      obtain ⟨receiver, ticker, j₂⟩ := v₂
      rw [h₂] at h
      dsimp only at h ⊢
      cases h₃ : env.load_instruction tx_id mediator with
      | error e =>
        dsimp only
        exact ⟨sender, ticker, receiver, ticker, rfl, rfl, rfl, htwo _ _ _ _⟩
      | ok instruction =>
        rw [h₃] at h
        dsimp only at h ⊢
        cases h₄ : env.load_mediator_account mediator with
        | error e =>
          dsimp only
          exact ⟨sender, ticker, receiver, ticker, rfl, rfl, rfl, htwo _ _ _ _⟩
        | ok mediator_account =>
          rw [h₄] at h
          dsimp only at h ⊢
          cases h₅ : st.accounts (sender, ticker) with
          | none =>
            dsimp only
            exact ⟨sender, ticker, receiver, ticker, rfl, rfl, rfl, htwo _ _ _ _⟩
          | some sender_account =>
            rw [h₅] at h
            dsimp only at h ⊢
            cases h₆ : st.accounts (receiver, ticker) with
            | none =>
              dsimp only
              exact ⟨sender, ticker, receiver, ticker, rfl, rfl, rfl, htwo _ _ _ _⟩
            | some receiver_account =>
              rw [h₆] at h
              dsimp only at h ⊢
              cases h₇ : env.verify_transaction instruction.data sender_account
                  receiver_account mediator_account pending_balance with
              | error e =>
                dsimp only
                exact ⟨sender, ticker, receiver, ticker, rfl, rfl, rfl, htwo _ _ _ _⟩
              | ok updated =>
                rw [h₇] at h
                simp [Except.isOk, Except.toBool] at h

/-- Environment of the C7 witness: all loads succeed and
`TransactionValidator::verify_transaction` rejects the proof. -/
def env_c7 : ValidatorEnv where
  get_user_ticker_from := fun a => .ok (if a = 1 then "alice" else "bob", "T", 0)
  load_mediator_account := fun _ => .ok 0
  load_instruction := fun _ _ => .ok ⟨.Started, ⟨⟨1, 2, ⟨1, 0⟩, ⟨0, 1⟩, 0⟩⟩⟩
  last_ordering_state_before := fun _ _ _ _ => .ok 0
  compute_enc_pending_balance := fun _ _ _ b => .ok b
  verify_transaction := fun _ _ _ _ _ => .error ()
  verify_asset_transaction := fun _ acc _ => .ok acc
  load_pub_account_tx := fun _ _ _ => .error .IoError
  get_asset_ids := .ok []
  account_verify := fun _ _ => .ok ()

/-- Store of the C7 witness (both accounts present). -/
def st_c7 : LedgerState := ⟨fun _ => some ⟨1, ⟨0, 0⟩, ⟨4, 4⟩, memo0⟩, [], none⟩

/-- The transfer of the C7 witness. -/
def tx_c7 : JustifiedTransferTx := ⟨⟨1, 2, ⟨1, 0⟩, ⟨0, 1⟩, 0⟩⟩

/-- Witness for C7's theorem: with a rejecting proof verifier the two legs are
error results and contribute no delta. -/
theorem failed_transfer_two_error_legs_specialized :
    ∃ u₁ t₁ u₂ t₂,
      (validate_transaction env_c7 st_c7 tx_c7 "med" (0 : EncryptedAmount) 7).1 =
        (ValidationResult.error u₁ t₁, ValidationResult.error u₂ t₂) ∧
      (ValidationResult.error u₁ t₁).amount = none ∧
      (ValidationResult.error u₂ t₂).amount = none ∧
      (∀ (results : List ValidationResult) (user ticker : String)
          (start : EncryptedAmount),
        fold_account_delta
            (results ++ [ValidationResult.error u₁ t₁, ValidationResult.error u₂ t₂])
            user ticker start =
          fold_account_delta results user ticker start ∧
        sum_incoming
            (results ++ [ValidationResult.error u₁ t₁, ValidationResult.error u₂ t₂])
            user ticker = sum_incoming results user ticker ∧
        sum_outgoing
            (results ++ [ValidationResult.error u₁ t₁, ValidationResult.error u₂ t₂])
            user ticker = sum_outgoing results user ticker) :=
  failed_transfer_two_error_legs_no_delta env_c7 st_c7 tx_c7 "med" 0 7 rfl

-- ---------------------------------------------------------------------------
-- C8
-- ---------------------------------------------------------------------------

/-- Whether a transaction is one of the kinds the dispatch loop's `_` arm
rejects with `Error::TransactionIsNotReadyForValidation`. -/
def CoreTransaction.is_catch_all : CoreTransaction → Bool
  | .NotReadyKind .. => true
  | _ => false

/-- `validate_account` preserves totality of the account store. -/
lemma validate_account_total (env : ValidatorEnv) (st : LedgerState) (aid : ℕ)
    (st' : LedgerState) (hst : ∀ k, (st.accounts k).isSome)
    (h : validate_account env st aid = .ok st') : ∀ k, (st'.accounts k).isSome := by
  unfold validate_account at h
  cases h₁ : env.get_user_ticker_from aid with
  | error e => rw [h₁] at h; cases h
  | ok v =>
    obtain ⟨user, ticker, txid⟩ := v
    rw [h₁, exc_ok_bind] at h
    dsimp only at h
    cases h₂ : env.load_pub_account_tx txid user ticker with
    | error e => rw [h₂] at h; cases h
    | ok user_account =>
      rw [h₂, exc_ok_bind] at h
      cases h₃ : env.get_asset_ids with
      | error e => rw [h₃] at h; cases h
      | ok ids =>
        rw [h₃, exc_ok_bind] at h
        cases h₄ : env.account_verify user_account ids with
        | error e => rw [h₄] at h; cases h
        | ok u =>
          rw [h₄] at h
          injection h with h'
          intro k
          rw [← h']
          by_cases hk : k = (user, ticker) <;> simp [hk, hst k]

/-- `validate_asset_issuance` never touches the account store (the source's
account save is commented out). -/
lemma issuance_accounts_unchanged (env : ValidatorEnv) (st : LedgerState)
    (atx : JustifiedAssetTx) (med : String) (i : ℕ) :
    ((validate_asset_issuance env st atx med i).2).accounts = st.accounts := by
  unfold validate_asset_issuance
  cases env.get_user_ticker_from atx.account_id with
  | error e => rfl
  | ok v =>
    obtain ⟨issuer, ticker, j⟩ := v
    dsimp only
    cases env.load_mediator_account med with
    | error e => rfl
    | ok m =>
      dsimp only
      cases st.accounts (issuer, ticker) with
      | none => rfl
      | some acc =>
        dsimp only
        cases env.verify_asset_transaction atx acc m with
        | error e => rfl
        | ok u => rfl

/-- `validate_transaction` never touches the account store (it persists only
the instruction file). -/
lemma transaction_accounts_unchanged (env : ValidatorEnv) (st : LedgerState)
    (tx : JustifiedTransferTx) (med : String) (pb : EncryptedAmount) (i : ℕ) :
    ((validate_transaction env st tx med pb i).2).accounts = st.accounts := by
  unfold validate_transaction
  cases env.get_user_ticker_from tx.memo.sndr_account_id with
  | error e => rfl
  | ok v₁ =>
    obtain ⟨sender, t₁, j₁⟩ := v₁
    dsimp only
    cases env.get_user_ticker_from tx.memo.rcvr_account_id with
    | error e => rfl
    | ok v₂ =>
      obtain ⟨receiver, ticker, j₂⟩ := v₂
      dsimp only
      cases env.load_instruction i med with
      | error e => rfl
      | ok instruction =>
        dsimp only
        cases env.load_mediator_account med with
        | error e => rfl
        | ok m =>
          dsimp only
          cases st.accounts (sender, ticker) with
          | none => rfl
          | some sa =>
            dsimp only
            cases st.accounts (receiver, ticker) with
            | none => rfl
            | some ra =>
              dsimp only
              cases env.verify_transaction instruction.data sa ra m pb with
              | error e => rfl
              | ok u => rfl

/-- If the user lookups, ordering-state and pending-balance computations all
succeed, every account is present in the store, and no ready transaction has
an unexpected kind, then the dispatch loop completes — regardless of the
outcome of every verification oracle — and keeps the store total. -/
lemma main_loop_ok (env : ValidatorEnv)
    (hut : ∀ a, (env.get_user_ticker_from a).isOk)
    (hord : ∀ s c t i, (env.last_ordering_state_before s c t i).isOk)
    (hpend : ∀ s o c b, (env.compute_enc_pending_balance s o c b).isOk) :
    ∀ (txs : List CoreTransaction), (∀ tx ∈ txs, tx.is_catch_all = false) →
    ∀ (st : LedgerState), (∀ k, (st.accounts k).isSome) →
    ∀ (results : List ValidationResult) (last : Int),
      ∃ out, main_loop env txs st results last = .ok out ∧
        ∀ k, ((out.2.2).accounts k).isSome := by
  intro txs
  induction txs with
  | nil => intro _ st hst results last; exact ⟨(results, last, st), rfl, hst⟩
  | cons tx rest ih =>
    intro hkind st hst results last
    have hkr : ∀ t ∈ rest, CoreTransaction.is_catch_all t = false :=
      fun t ht => hkind t (List.mem_cons_of_mem _ ht)
    cases tx with
    | IssueJustify itx i med =>
      have hst' : ∀ k, (((validate_asset_issuance env st itx med i).2).accounts k).isSome :=
        fun k => by rw [issuance_accounts_unchanged]; exact hst k
      obtain ⟨out, hmain, hout⟩ := ih hkr _ hst' (results ++
        [(validate_asset_issuance env st itx med i).1]) (max last (u32_as_i32 i))
      exact ⟨out, hmain, hout⟩
    | TransferJustify ttx i med =>
      have h₁ := hut ttx.memo.sndr_account_id
      cases hu : env.get_user_ticker_from ttx.memo.sndr_account_id with
      | error e => rw [hu] at h₁; simp [Except.isOk, Except.toBool] at h₁
      | ok v =>
        obtain ⟨sender, ticker, j⟩ := v
        have hsome := hst (sender, ticker)
        cases hacc : st.accounts (sender, ticker) with
        | none => rw [hacc] at hsome; simp at hsome
        | some sender_account =>
          have h₂ := hord sender sender_account.memo.last_processed_tx_counter i
            ttx.memo.sndr_ordering_state_current_tx_id
          cases ho : env.last_ordering_state_before sender
              sender_account.memo.last_processed_tx_counter i
              ttx.memo.sndr_ordering_state_current_tx_id with
          | error e => rw [ho] at h₂; simp [Except.isOk, Except.toBool] at h₂
          | ok ost =>
            have h₃ := hpend sender ost sender_account.memo.last_processed_tx_counter
              sender_account.enc_balance
            cases hp : env.compute_enc_pending_balance sender ost
                sender_account.memo.last_processed_tx_counter
                sender_account.enc_balance with
            | error e => rw [hp] at h₃; simp [Except.isOk, Except.toBool] at h₃
            | ok pb =>
              have hst' : ∀ k,
                  (((validate_transaction env st ttx med pb i).2).accounts k).isSome :=
                fun k => by rw [transaction_accounts_unchanged]; exact hst k
              obtain ⟨out, hmain, hout⟩ := ih hkr _ hst'
                (results ++ [(validate_transaction env st ttx med pb i).1.1,
                  (validate_transaction env st ttx med pb i).1.2])
                (max last (u32_as_i32 i))
              refine ⟨out, ?_, hout⟩
              show main_loop env (.TransferJustify ttx i med :: rest) st results last =
                .ok out
              unfold main_loop
              dsimp only
              rw [hu, exc_ok_bind]
              dsimp only
              rw [hacc]
              dsimp only
              rw [ho, exc_ok_bind, hp, exc_ok_bind]
              exact hmain
    | Account atx i =>
      cases hva : validate_account env st atx.pub_account.id with
      | error e =>
        obtain ⟨out, hmain, hout⟩ := ih hkr st hst results (max last (u32_as_i32 i))
        refine ⟨out, ?_, hout⟩
        show main_loop env (.Account atx i :: rest) st results last = .ok out
        unfold main_loop
        dsimp only
        rw [hva]
        exact hmain
      | ok st₂ =>
        have hst₂ := validate_account_total env st atx.pub_account.id st₂ hst hva
        obtain ⟨out, hmain, hout⟩ := ih hkr st₂ hst₂ results (max last (u32_as_i32 i))
        refine ⟨out, ?_, hout⟩
        show main_loop env (.Account atx i :: rest) st results last = .ok out
        unfold main_loop
        dsimp only
        rw [hva]
        exact hmain
    | NotReadyKind b i =>
      have := hkind _ (List.mem_cons_self _ _)
      simp [CoreTransaction.is_catch_all] at this

/-- If every account is present in the store, the folding phase completes and
keeps the store total. -/
lemma fold_balances_ok (results : List ValidationResult) :
    ∀ (L : List (String × String)) (st : LedgerState),
      (∀ k, (st.accounts k).isSome) →
      ∃ st', fold_balances results L st = .ok st' ∧ ∀ k, (st'.accounts k).isSome := by
  intro L
  induction L with
  | nil => intro st hst; exact ⟨st, rfl, hst⟩
  | cons p rest ih =>
    intro st hst
    obtain ⟨user, ticker⟩ := p
    have hsome := hst (user, ticker)
    cases hacc : st.accounts (user, ticker) with
    | none => rw [hacc] at hsome; simp at hsome
    | some pub_account =>
      obtain ⟨st', hfold, hout⟩ := ih
        { st with accounts := fun k =>
            if k = (user, ticker) then
              some (PubAccount.mk pub_account.id pub_account.enc_asset_id
                (fold_account_delta results user ticker pub_account.enc_balance)
                pub_account.memo)
            else st.accounts k }
        (by intro k; by_cases hk : k = (user, ticker) <;> simp [hk, hst k])
      refine ⟨st', ?_, hout⟩
      unfold fold_balances
      rw [hacc]
      exact hfold

/-- C8 (amended, positive part): per-transaction validation failures never
abort the batch.  If the transaction files all parse and load, every ready
transaction has an expected kind (account, issuance, transfer justification),
every account the run touches is present in the store, and the lookup,
ordering-state and pending-balance helpers succeed, then
`validate_all_pending` returns `Ok` REGARDLESS of the outcomes of
`AccountValidator::verify`, `AssetValidator::verify_asset_transaction` and
`TransactionValidator::verify_transaction` (unconstrained here).  The claim's
"aborts only on file parse/load failures or an unexpected kind" is refuted by
the counterexample: the transfer arm's pending-balance preparation (sender
lookup, sender-account load, ordering state, pending balance) and the
folding-phase account loads abort the run with `?` as well. -/
theorem per_transaction_failures_do_not_abort
    (env : ValidatorEnv) (st : LedgerState) (files : List TxFile)
    (txs : List CoreTransaction)
    (hload : load_all_unverified_and_ready files = .ok txs)
    (hkind : ∀ tx ∈ txs, CoreTransaction.is_catch_all tx = false)
    (hst : ∀ k, (st.accounts k).isSome)
    (hut : ∀ a, (env.get_user_ticker_from a).isOk)
    (hord : ∀ s c t i, (env.last_ordering_state_before s c t i).isOk)
    (hpend : ∀ s o c b, (env.compute_enc_pending_balance s o c b).isOk) :
    (validate_all_pending env st files).isOk := by
  obtain ⟨out, hmain, hout⟩ := main_loop_ok env hut hord hpend txs hkind st hst [] (-1)
  obtain ⟨st', hfold, _⟩ := fold_balances_ok out.1 (account_pairs out.1) out.2.2 hout
  unfold validate_all_pending
  rw [hload, exc_ok_bind, hmain, exc_ok_bind, hfold, exc_ok_bind]
  rfl

/-- Environment of the C8 counterexample. -/
def env_c8 : ValidatorEnv where
  get_user_ticker_from := fun _ => .ok ("alice", "T", 0)
  load_mediator_account := fun _ => .ok 0
  load_instruction := fun _ _ => .ok ⟨.Started, ⟨⟨1, 2, ⟨0, 0⟩, ⟨0, 0⟩, 0⟩⟩⟩
  last_ordering_state_before := fun _ _ _ _ => .ok 0
  compute_enc_pending_balance := fun _ _ _ b => .ok b
  verify_transaction := fun _ _ _ _ _ => .error ()
  verify_asset_transaction := fun _ acc _ => .ok acc
  load_pub_account_tx := fun _ _ _ => .error .IoError
  get_asset_ids := .ok []
  account_verify := fun _ _ => .ok ()

/-- An empty store: the sender account file is missing. -/
def st_c8 : LedgerState := ⟨fun _ => none, [], none⟩

/-- The transfer of the C8 counterexample. -/
def tx_c8 : JustifiedTransferTx := ⟨⟨1, 2, ⟨0, 0⟩, ⟨0, 0⟩, 0⟩⟩

/-- The single transfer file of the C8 counterexample. -/
def files_c8 : List TxFile := [.ok (.TransferJustify tx_c8 7 "med")]

/-- Counterexample to C8 as stated: every transaction file parses and loads,
and the only ready transaction is an expected kind (a justified transfer), yet
the run aborts — the transfer arm's sender-account `load_object` fails with an
I/O error, which `validate_all_pending` propagates with `?` instead of
producing an error `ValidationResult`. -/
theorem run_aborts_on_missing_sender_account :
    load_all_unverified_and_ready files_c8 = .ok [.TransferJustify tx_c8 7 "med"] ∧
    validate_all_pending env_c8 st_c8 files_c8 = .error .IoError :=
  ⟨rfl, rfl⟩

/-- Environment of the C8 witness: every store helper succeeds and every
verification oracle rejects. -/
def env_c8w : ValidatorEnv where
  get_user_ticker_from := fun _ => .ok ("alice", "T", 0)
  load_mediator_account := fun _ => .ok 0
  load_instruction := fun _ _ => .ok ⟨.Started, ⟨⟨1, 2, ⟨0, 0⟩, ⟨0, 0⟩, 0⟩⟩⟩
  last_ordering_state_before := fun _ _ _ _ => .ok 0
  compute_enc_pending_balance := fun _ _ _ b => .ok b
  verify_transaction := fun _ _ _ _ _ => .error ()
  verify_asset_transaction := fun _ _ _ => .error ()
  load_pub_account_tx := fun _ _ _ => .ok ⟨⟨3, ⟨0, 0⟩, ⟨0, 0⟩, memo0⟩⟩
  get_asset_ids := .ok []
  account_verify := fun _ _ => .error ()

/-- A total store for the C8 witness. -/
def st_c8w : LedgerState := ⟨fun _ => some ⟨3, ⟨0, 0⟩, ⟨0, 0⟩, memo0⟩, [], none⟩

/-- A batch with one issuance, one transfer and one account creation, all of
whose verifications fail, for the C8 witness. -/
def files_c8w : List TxFile :=
  [.ok (.IssueJustify ⟨1, ⟨1, 1⟩⟩ 2 "med"),
   .ok (.TransferJustify tx_c8 3 "med"),
   .ok (.Account ⟨⟨3, ⟨0, 0⟩, ⟨0, 0⟩, memo0⟩⟩ 4)]

/-- Witness for C8's theorem: with every verification oracle rejecting, the
run still completes. -/
theorem per_transaction_failures_do_not_abort_specialized :
    (validate_all_pending env_c8w st_c8w files_c8w).isOk :=
  per_transaction_failures_do_not_abort env_c8w st_c8w files_c8w
    [.IssueJustify ⟨1, ⟨1, 1⟩⟩ 2 "med", .TransferJustify tx_c8 3 "med",
     .Account ⟨⟨3, ⟨0, 0⟩, ⟨0, 0⟩, memo0⟩⟩ 4]
    rfl (by decide) (fun k => rfl) (fun a => rfl) (fun s c t i => rfl)
    (fun s o c b => rfl)

-- ---------------------------------------------------------------------------
-- C9
-- ---------------------------------------------------------------------------

/-- The `last_tx_id` accumulator of the dispatch loop is the left fold of
`max` over the `tx_id as i32` values of the processed transactions. -/
lemma main_loop_last (env : ValidatorEnv) :
    ∀ (txs : List CoreTransaction) (st : LedgerState)
      (results : List ValidationResult) (last : Int)
      (out : List ValidationResult × Int × LedgerState),
      main_loop env txs st results last = .ok out →
      out.2.1 = txs.foldl (fun m tx => max m (u32_as_i32 tx.tx_id)) last := by
  intro txs
  induction txs with
  | nil =>
    intro st results last out h
    injection h with h'
    rw [← h']
    rfl
  | cons tx rest ih =>
    intro st results last out h
    cases tx with
    | IssueJustify itx i med =>
      unfold main_loop at h
      dsimp only at h
      exact ih _ _ _ _ h
    | TransferJustify ttx i med =>
      unfold main_loop at h
      dsimp only at h
      cases hu : env.get_user_ticker_from ttx.memo.sndr_account_id with
      | error e => rw [hu] at h; cases h
      | ok v =>
        obtain ⟨sender, ticker, j⟩ := v
        rw [hu, exc_ok_bind] at h
        dsimp only at h
        cases hacc : st.accounts (sender, ticker) with
        | none => rw [hacc] at h; cases h
        | some sender_account =>
          rw [hacc] at h
          try dsimp only at h
          cases ho : env.last_ordering_state_before sender
              sender_account.memo.last_processed_tx_counter i
              ttx.memo.sndr_ordering_state_current_tx_id with
          | error e => rw [ho] at h; cases h
          | ok ost =>
            rw [ho, exc_ok_bind] at h
            cases hp : env.compute_enc_pending_balance sender ost
                sender_account.memo.last_processed_tx_counter
                sender_account.enc_balance with
            | error e => rw [hp] at h; cases h
            | ok pb =>
              rw [hp, exc_ok_bind] at h
              try dsimp only at h
              exact ih _ _ _ _ h
    | Account atx i =>
      unfold main_loop at h
      dsimp only at h
      cases hva : validate_account env st atx.pub_account.id with
      | error e => rw [hva] at h; exact ih _ _ _ _ h
      | ok st₂ => rw [hva] at h; exact ih _ _ _ _ h
    | NotReadyKind b i =>
      unfold main_loop at h
      dsimp only at h
      cases h

/-- C9 (amended): a successful `validate_all_pending` run persists, as
`LAST_VALIDATED_TX_ID`, the fold of `max` over the processed transactions'
`tx_id as i32` values starting from −1 — the maximum processed id for a
nonempty batch with ids below 2³¹, and −1 for a run that processes nothing.
The persisted value depends only on the current run, so the id is NOT monotone
across runs: a run that processes no transactions resets the file to −1 (see
the counterexample). -/
theorem last_validated_is_fold_max (env : ValidatorEnv) (st : LedgerState)
    (files : List TxFile) (txs : List CoreTransaction)
    (out : List ValidationResult × Int × LedgerState) (st' : LedgerState)
    (hload : load_all_unverified_and_ready files = .ok txs)
    (hmain : main_loop env txs st [] (-1) = .ok out)
    (hrun : validate_all_pending env st files = .ok st') :
    st'.last_validated_tx_id =
      some (txs.foldl (fun m tx => max m (u32_as_i32 tx.tx_id)) (-1)) := by
  unfold validate_all_pending at hrun
  rw [hload, exc_ok_bind, hmain, exc_ok_bind] at hrun
  cases hfold : fold_balances out.1 (account_pairs out.1) out.2.2 with
  | error e => rw [hfold] at hrun; cases hrun
  | ok st₂ =>
    rw [hfold, exc_ok_bind] at hrun
    injection hrun with h'
    rw [← h']
    rw [main_loop_last env txs st [] (-1) out hmain]

/-- Environment of the C9 counterexample (no transaction is pending, so no
oracle is consulted). -/
def env_c9 : ValidatorEnv where
  get_user_ticker_from := fun _ => .error .IoError
  load_mediator_account := fun _ => .error .IoError
  load_instruction := fun _ _ => .error .IoError
  last_ordering_state_before := fun _ _ _ _ => .error .IoError
  compute_enc_pending_balance := fun _ _ _ _ => .error .IoError
  verify_transaction := fun _ _ _ _ _ => .error ()
  verify_asset_transaction := fun _ _ _ => .error ()
  load_pub_account_tx := fun _ _ _ => .error .IoError
  get_asset_ids := .error .IoError
  account_verify := fun _ _ => .error ()

/-- A store whose `LAST_VALIDATED_TX_ID` file holds 5 (persisted by an earlier
run that validated transaction 5). -/
def st_c9 : LedgerState := ⟨fun _ => none, [], some 5⟩

/-- Counterexample to C9 as stated: a successful run that processes no
transactions overwrites `LAST_VALIDATED_TX_ID` with −1, strictly below the
previously persisted 5 — the persisted id is not monotone across runs. -/
theorem empty_run_resets_last_validated :
    st_c9.last_validated_tx_id = some 5 ∧
    (validate_all_pending env_c9 st_c9 []).map (fun s => s.last_validated_tx_id) =
      .ok (some (-1)) ∧
    ((-1 : Int) < 5) :=
  ⟨rfl, rfl, by decide⟩

/-- Witness for C9's theorem: the concrete run of the C6 witness (one issuance
with `tx_id = 4`) persists `max (−1) 4`. -/
theorem last_validated_is_fold_max_specialized :
    stp_c6w.last_validated_tx_id =
      some (([CoreTransaction.IssueJustify ⟨1, ⟨2, 3⟩⟩ 4 "med"]).foldl
        (fun m tx => max m (u32_as_i32 tx.tx_id)) (-1)) :=
  last_validated_is_fold_max env_c6w st_c6w files_c6w
    [.IssueJustify ⟨1, ⟨2, 3⟩⟩ 4 "med"]
    (results_c6w, max (-1) (u32_as_i32 4), st1_c6w) stp_c6w rfl rfl rfl
